import Mathlib

/-!
Shallow embedding of the expense-tracker MCP server's analytical core
(`src/database/sqlite-adapter.js`, `src/database/sqlite-methods.js`,
`src/utils/helpers.js`) together with theorems settling the frozen claims.

Modelling conventions:
* SQLite `REAL` amounts are modelled exactly over `ℚ`.
* `TEXT` dates hold well-formed ISO `YYYY-MM-DD` values; they are modelled as a
  `Date` component structure whose lexicographic order agrees with SQLite's
  textual comparison of well-formed ISO dates.
* JavaScript truthiness on optional strings (`undefined`, `null`, `''` are
  falsy) is modelled by `jsOptStrTruthy`.
* `Number.prototype.toFixed(2)` on an exact value is modelled by `round2`
  (round to nearest hundredth).
* Nondeterministic inputs of `batchCreateTransactions` (`generateId`, the
  clock and the implementation-defined date parsing inside `formatDate`) are
  abstracted as explicit function parameters; `formatDate` is fallible,
  returning `Except.error "Invalid time value"` where JavaScript's
  `new Date(d).toISOString()` would throw.
-/

namespace ExpenseMCP

/-! ## Definitions -/

/-- Calendar date: a well-formed ISO `YYYY-MM-DD` TEXT value as stored in the
`date` columns.  Lexicographic comparison of the components agrees with
SQLite's textual comparison of well-formed ISO dates. -/
structure Date where
  y : Nat
  m : Nat
  d : Nat
  deriving DecidableEq

/-- SQLite textual `<=` on well-formed ISO dates (lexicographic). -/
def dateLe (a b : Date) : Bool :=
  decide (a.y < b.y ∨ (a.y = b.y ∧ (a.m < b.m ∨ (a.m = b.m ∧ a.d ≤ b.d))))

/-- JavaScript truthiness of an optional string: `undefined`/`null`/`''` are falsy. -/
def jsOptStrTruthy (o : Option String) : Bool :=
  match o with
  | none => false
  | some s => s != ""

/-- `x.toFixed(2)` on an exact rational: round to the nearest hundredth. -/
def round2 (q : ℚ) : ℚ :=
  ((round (q * 100) : ℤ) : ℚ) / 100

/-- A row of the `transactions` table (joined display fields live elsewhere). -/
structure Txn where
  id : String
  type : String
  amount : ℚ
  category_id : String
  ledger_id : String
  description : String
  date : Date
  tags : String
  deriving DecidableEq

/-- A row of the `categories` table. -/
structure Category where
  id : String
  name : String
  type : String
  parent_id : Option String
  description : String
  active : Bool
  deriving DecidableEq

/-- A row of the `ledgers` table. -/
structure Ledger where
  id : String
  name : String
  type : String
  balance : ℚ
  currency : String
  active : Bool
  deriving DecidableEq

/-- A row of the `budgets` table. -/
structure Budget where
  id : String
  category_id : String
  amount : ℚ
  period : String
  start_date : Date
  end_date : Option Date
  active : Bool
  deriving DecidableEq

/-- The relational store: the four tables the analytical layer reads. -/
structure Store where
  categories : List Category
  ledgers : List Ledger
  budgets : List Budget
  transactions : List Txn
  deriving DecidableEq

/-- `SELECT * FROM categories WHERE id = ?` (first matching row). -/
def findCategory (st : Store) (cid : String) : Option Category :=
  st.categories.find? (fun c => c.id == cid)

/-- `SELECT * FROM ledgers WHERE id = ?` (first matching row). -/
def findLedger (st : Store) (lid : String) : Option Ledger :=
  st.ledgers.find? (fun l => l.id == lid)

/-- An analysis window: the `period.start` / `period.end` arguments. -/
structure AnalysisPeriod where
  startDate : Date
  endDate : Date
  deriving DecidableEq

/-- `t.date >= ? AND t.date <= ?` against the window bounds. -/
def inWindow (p : AnalysisPeriod) (t : Txn) : Bool :=
  dateLe p.startDate t.date && dateLe t.date p.endDate

/-! ### `analyzeSpending` — `category_breakdown` (sqlite-adapter.js lines 542-576) -/

/-- The optional `filters` argument of `analyze_spending`. -/
structure ASFilters where
  transaction_type : Option String
  categories : Option (List String)
  deriving DecidableEq

/-- `if (filters.transaction_type) AND t.type = ?` — truthiness guard on the filter. -/
def matchesTypeFilter (f : ASFilters) (t : Txn) : Bool :=
  if jsOptStrTruthy f.transaction_type then t.type == f.transaction_type.getD "" else true

/-- `if (filters.categories && filters.categories.length > 0) AND t.category_id IN (...)`. -/
def matchesCatFilter (f : ASFilters) (t : Txn) : Bool :=
  match f.categories with
  | some (c :: cs) => (c :: cs).contains t.category_id
  | _ => true

/-- The row set of the breakdown query: transactions in the window passing the
optional filters whose category exists (inner `JOIN categories`). -/
def cbFiltered (st : Store) (p : AnalysisPeriod) (f : ASFilters) : List Txn :=
  st.transactions.filter fun t =>
    inWindow p t && matchesTypeFilter f t && matchesCatFilter f t
      && (findCategory st t.category_id).isSome

/-- One group row of the `category_breakdown` result.  The SQL rows carry no
`percentage`; it is attached afterwards in JS, modelled here by a placeholder
`0` that the final `map` overwrites for every row. -/
structure CBRow where
  category : String
  category_id : String
  type : String
  total_amount : ℚ
  transaction_count : ℕ
  avg_amount : ℚ
  percentage : ℚ
  deriving DecidableEq

/-- `ORDER BY total_amount DESC` as a relation on group rows. -/
def cbGE (a b : CBRow) : Prop := b.total_amount ≤ a.total_amount

instance : DecidableRel cbGE := fun a b =>
  inferInstanceAs (Decidable (b.total_amount ≤ a.total_amount))

instance : IsTotal CBRow cbGE := ⟨fun a b => le_total b.total_amount a.total_amount⟩

instance : IsTrans CBRow cbGE := ⟨fun _ _ _ h h' => le_trans h' h⟩

/-- `GROUP BY c.id, c.name, c.type` with `SUM`, `COUNT`, `AVG`, ordered by
total descending: the `breakdown` rows before the percentage pass. -/
def cbRows (st : Store) (p : AnalysisPeriod) (f : ASFilters) : List CBRow :=
  let rows := ((cbFiltered st p f).map (·.category_id)).dedup.filterMap fun cid =>
    (findCategory st cid).map fun c =>
      let group := (cbFiltered st p f).filter (fun t => t.category_id == cid)
      let total := (group.map (·.amount)).sum
      { category := c.name, category_id := c.id, type := c.type,
        total_amount := total, transaction_count := group.length,
        avg_amount := total / (group.length : ℚ), percentage := 0 }
  List.insertionSort cbGE rows

/-- The `category_breakdown` response object. -/
structure CBResult where
  breakdown : List CBRow
  total_amount : ℚ
  deriving DecidableEq

/-- `analyzeSpending('category_breakdown', period, filters)`:
grand total is the sum of the group totals, and each group's `percentage` is
`(total_amount / total * 100).toFixed(2)` when the grand total is positive and
the number `0` otherwise. -/
def categoryBreakdown (st : Store) (p : AnalysisPeriod) (f : ASFilters) : CBResult :=
  let breakdown := cbRows st p f
  let total := (breakdown.map (·.total_amount)).sum
  { breakdown := breakdown.map fun item =>
      { item with percentage := if 0 < total then round2 (item.total_amount / total * 100) else 0 }
    total_amount := total }

/-! ### `analyzeSpending` — `budget_variance` (sqlite-adapter.js lines 612-637) -/

/-- One row of the `budget_variance` result. -/
structure BVRow where
  budget_id : String
  budgeted_amount : ℚ
  period : String
  category_name : String
  category_id : String
  actual_amount : ℚ
  variance : ℚ
  variance_percentage : ℚ
  status : String
  deriving DecidableEq

/-- `COALESCE(SUM(t.amount), 0)` over the `LEFT JOIN`: expense transactions of
the budget's category inside the window. -/
def bvActual (st : Store) (p : AnalysisPeriod) (cid : String) : ℚ :=
  ((st.transactions.filter fun t =>
      t.category_id == cid && inWindow p t && t.type == "expense").map (·.amount)).sum

/-- `analyzeSpending('budget_variance', period)`: one row per active budget
(`WHERE b.active = 1`, inner `JOIN categories`; budget ids are primary keys so
`GROUP BY b.id` yields one group per budget row). -/
def budgetVariance (st : Store) (p : AnalysisPeriod) : List BVRow :=
  (st.budgets.filter (·.active)).filterMap fun b =>
    (findCategory st b.category_id).map fun c =>
      let actual := bvActual st p b.category_id
      { budget_id := b.id, budgeted_amount := b.amount, period := b.period,
        category_name := c.name, category_id := c.id,
        actual_amount := actual,
        variance := actual - b.amount,
        variance_percentage :=
          if (0 : ℚ) < b.amount then round2 ((actual - b.amount) / b.amount * 100) else 0,
        status := if b.amount < actual then "over" else "under" }

/-! ### `queryTransactions` (sqlite-adapter.js lines 256-342) -/

/-- The `filters` argument of `query_transactions`. -/
structure QTFilters where
  date_start : Option Date
  date_end : Option Date
  categories : Option (List String)
  ledgers : Option (List String)
  search_text : Option String
  min_amount : Option ℚ
  max_amount : Option ℚ
  deriving DecidableEq

/-- The `pagination` argument (`page` defaults to 1, `limit` to 50). -/
structure QTPagination where
  page : Option Nat
  limit : Option Nat
  deriving DecidableEq

/-- The `sort` argument. -/
structure QTSort where
  field : Option String
  order : Option String
  deriving DecidableEq

/-- The full options object of `query_transactions`. -/
structure QTOptions where
  type : String
  filters : QTFilters
  pagination : QTPagination
  sort : QTSort
  deriving DecidableEq

/-- Case-insensitive ASCII `LIKE '%pat%'`: lowercased substring containment. -/
def likeContains (pat s : String) : Bool :=
  (s.toLower.data.tails).any fun suf => pat.toLower.data.isPrefixOf suf

/-- The `WHERE` predicate assembled from the structured filters, including the
inner joins to `categories` and `ledgers`. -/
def qtMatches (st : Store) (o : QTOptions) (t : Txn) : Bool :=
  (if o.type != "all" then t.type == o.type else true)
    && (match o.filters.date_start with | some d => dateLe d t.date | none => true)
    && (match o.filters.date_end with | some d => dateLe t.date d | none => true)
    && (match o.filters.categories with
        | some (c :: cs) => (c :: cs).contains t.category_id
        | _ => true)
    && (match o.filters.ledgers with
        | some (l :: ls) => (l :: ls).contains t.ledger_id
        | _ => true)
    && (match o.filters.search_text with | some s => likeContains s t.description | none => true)
    && (match o.filters.min_amount with | some a => decide (a ≤ t.amount) | none => true)
    && (match o.filters.max_amount with | some a => decide (t.amount ≤ a) | none => true)
    && (findCategory st t.category_id).isSome && (findLedger st t.ledger_id).isSome

/-- Sort key selection: `category` → joined category name, `date` → the date,
anything else (including an unknown field) → amount. -/
inductive QTKey
  | byName (s : String)
  | byDate (d : Date)
  | byAmount (q : ℚ)
  deriving DecidableEq

/-- Boolean `≤` on sort keys (only compared between keys of the same shape). -/
def qtKeyLe : QTKey → QTKey → Bool
  | .byName a, .byName b => decide (a ≤ b)
  | .byDate a, .byDate b => dateLe a b
  | .byAmount a, .byAmount b => decide (a ≤ b)
  | _, _ => true

/-- The `ORDER BY` comparison produced from the `sort` argument: no field →
`t.date DESC`; otherwise the selected field with `sort.order` (default `desc`). -/
def qtLe (st : Store) (o : QTOptions) (a b : Txn) : Prop :=
  match o.sort.field with
  | none => dateLe b.date a.date = true
  | some f =>
    let key : Txn → QTKey := fun t =>
      if f = "category" then .byName (((findCategory st t.category_id).map (·.name)).getD "")
      else if f = "date" then .byDate t.date
      else .byAmount t.amount
    if o.sort.order.getD "desc" = "asc" then qtKeyLe (key a) (key b) = true
    else qtKeyLe (key b) (key a) = true

instance (st : Store) (o : QTOptions) : DecidableRel (qtLe st o) := fun a b => by
  unfold qtLe
  cases o.sort.field <;> dsimp only <;> infer_instance

/-- Pagination metadata of the `query_transactions` response. -/
structure QTPageMeta where
  page : Nat
  limit : Nat
  total : Nat
  has_next : Bool
  deriving DecidableEq

/-- The `query_transactions` response. -/
structure QTResult where
  transactions : List Txn
  pagination : QTPageMeta
  deriving DecidableEq

/-- `queryTransactions(options)`: filter, count, sort, clamp the limit to 100,
slice the requested page, and report `has_next = page * actualLimit < total`.
(The joined display columns of the returned rows are omitted; the underlying
transaction rows and all metadata are modelled.) -/
def queryTransactions (st : Store) (o : QTOptions) : QTResult :=
  let matching := st.transactions.filter (qtMatches st o)
  let sorted := List.insertionSort (qtLe st o) matching
  let page := o.pagination.page.getD 1
  let limit := o.pagination.limit.getD 50
  let actualLimit := min limit 100
  let offset := (page - 1) * actualLimit
  { transactions := (sorted.drop offset).take actualLimit
    pagination :=
      { page := page, limit := actualLimit, total := matching.length,
        has_next := decide (page * actualLimit < matching.length) } }

/-! ### `batchCreateTransactions` (sqlite-adapter.js lines 355-433) and
`validateTransaction` (utils/helpers.js lines 258-274) -/

/-- A raw JSON item of the `transactions` array: any field may be absent. -/
structure InputTxn where
  type : Option String
  amount : Option ℚ
  category : Option String
  ledger_id : Option String
  description : Option String
  date : Option String
  tags : Option (List String)
  deriving DecidableEq

/-- `validateTransaction`: the accumulated error strings, in source order.
`!transaction.type || !['income','expense'].includes(...)`,
`!transaction.amount || transaction.amount <= 0`, `!transaction.category`,
with JavaScript falsiness (`undefined`, `''`, `0`). -/
def validateTransaction (t : InputTxn) : List String :=
  (if t.type = some "income" ∨ t.type = some "expense" then [] else ["Invalid transaction type"])
    ++ (match t.amount with
        | none => ["Invalid amount"]
        | some a => if a ≤ 0 then ["Invalid amount"] else [])
    ++ (if jsOptStrTruthy t.category then [] else ["Category is required"])

/-- Per-item success entry of the batch result (`status` is `'valid'` on a dry
run and `'created'` with the generated id otherwise). -/
structure BatchItemResult where
  index : Nat
  status : String
  transaction_id : Option String
  transaction : InputTxn
  deriving DecidableEq

/-- Per-item failure entry of the batch result. -/
structure BatchItemError where
  index : Nat
  error : String
  transaction : InputTxn
  deriving DecidableEq

/-- The `summary` object of the batch result. -/
structure BatchSummary where
  total : Nat
  successful : Nat
  failed : Nat
  validate_only : Bool
  deriving DecidableEq

/-- The full outcome of `batchCreateTransactions`, together with the store it
leaves behind. -/
structure BatchOutcome where
  store : Store
  results : List BatchItemResult
  errors : List BatchItemError
  summary : BatchSummary
  deriving DecidableEq

/-- The body of one loop iteration: validate, look up category and ledger
(`txn.ledger_id || 'checking'`), then either record `'valid'` (dry run) or
format the date, insert the row and record `'created'`.  `genId` abstracts
`generateId('txn')` for this index.  `fmtDate` abstracts `formatDate`
(helpers.js lines 178-181) and is fallible: `new Date(d).toISOString()`
throws `RangeError: Invalid time value` for an unparseable date string, which
the per-item `catch` records as that item's error — modelled by the
`Except.error` branch carrying the thrown message.  Only the non-dry branch
evaluates the date; the dry run never calls `formatDate`. -/
def processOne (genId : Nat → String) (fmtDate : Option String → Except String Date)
    (validateOnly : Bool) (st : Store) (i : Nat) (t : InputTxn) :
    Store × (BatchItemResult ⊕ BatchItemError) :=
  let verrs := validateTransaction t
  if verrs ≠ [] then
    (st, .inr ⟨i, String.intercalate ", " verrs, t⟩)
  else
    let catId := t.category.getD ""
    match findCategory st catId with
    | none => (st, .inr ⟨i, "Category not found: " ++ catId, t⟩)
    | some _ =>
      let lid := if jsOptStrTruthy t.ledger_id then t.ledger_id.getD "" else "checking"
      match findLedger st lid with
      | none => (st, .inr ⟨i, "Ledger not found: " ++ lid, t⟩)
      | some _ =>
        if validateOnly then
          (st, .inl ⟨i, "valid", none, t⟩)
        else
          match fmtDate t.date with
          | .error msg => (st, .inr ⟨i, msg, t⟩)
          | .ok dt =>
            let tid := genId i
            let tags := match t.tags with | some ts => String.intercalate "," ts | none => ""
            let row : Txn :=
              { id := tid, type := t.type.getD "", amount := t.amount.getD 0,
                category_id := catId, ledger_id := lid,
                description := t.description.getD "", date := dt, tags := tags }
            ({ st with transactions := st.transactions ++ [row] },
             .inl ⟨i, "created", some tid, t⟩)

/-- The batch loop from item index `i`, threading the store and collecting the
`results` and `errors` lists in input order. -/
def batchGo (genId : Nat → String) (fmtDate : Option String → Except String Date)
    (validateOnly : Bool) :
    Store → Nat → List InputTxn → Store × List BatchItemResult × List BatchItemError
  | st, _, [] => (st, [], [])
  | st, i, t :: rest =>
    let step := processOne genId fmtDate validateOnly st i t
    let tail := batchGo genId fmtDate validateOnly step.1 (i + 1) rest
    match step.2 with
    | .inl r => (tail.1, r :: tail.2.1, tail.2.2)
    | .inr e => (tail.1, tail.2.1, e :: tail.2.2)

/-- `batchCreateTransactions(transactions, validateOnly)`. -/
def batchCreateTransactions (genId : Nat → String) (fmtDate : Option String → Except String Date)
    (st : Store) (items : List InputTxn) (validateOnly : Bool) : BatchOutcome :=
  let run := batchGo genId fmtDate validateOnly st 0 items
  { store := run.1, results := run.2.1, errors := run.2.2,
    summary :=
      { total := items.length, successful := run.2.1.length, failed := run.2.2.length,
        validate_only := validateOnly } }

/-! ### Calendar arithmetic backing SQLite's `strftime`
(used by `analyzeSpending('time_trend', ...)`, sqlite-adapter.js lines 578-610) -/

/-- Gregorian leap-year rule. -/
def isLeap (y : Nat) : Bool :=
  (y % 4 == 0 && y % 100 != 0) || y % 400 == 0

/-- Days strictly before month `m` (1-12) in a year of the given leapness. -/
def daysBeforeMonth (m : Nat) (leap : Bool) : Nat :=
  let base := match m with
    | 1 => 0 | 2 => 31 | 3 => 59 | 4 => 90 | 5 => 120 | 6 => 151
    | 7 => 181 | 8 => 212 | 9 => 243 | 10 => 273 | 11 => 304 | _ => 334
  if leap && decide (2 < m) then base + 1 else base

/-- 0-based day-of-year index (`%j` minus one). -/
def dayOfYear0 (dt : Date) : Nat :=
  daysBeforeMonth dt.m (isLeap dt.y) + (dt.d - 1)

/-- Days elapsed since 0000-03-01 in the proleptic Gregorian calendar
(civil-from-date algorithm, specialised to nonnegative years). -/
def dayNumber (dt : Date) : Nat :=
  let ys := if dt.m ≤ 2 then dt.y - 1 else dt.y
  let era := ys / 400
  let yoe := ys % 400
  let mp := (dt.m + 9) % 12
  let doy := (153 * mp + 2) / 5 + dt.d - 1
  let doe := yoe * 365 + yoe / 4 - yoe / 100 + doy
  era * 146097 + doe

/-- Day of week, Monday = 0 … Sunday = 6 (0000-03-01 was a Wednesday). -/
def mondayWday (dt : Date) : Nat :=
  (dayNumber dt + 2) % 7

/-- SQLite `strftime('%W')`: week of year 00-53, weeks starting Monday, days
before the first Monday of the year falling in week 00
(`(dayOfYear + 7 - mondayBasedWeekday) / 7` in sqlite's date.c). -/
def sqliteWeekOfYear (dt : Date) : Nat :=
  (dayOfYear0 dt + 7 - mondayWday dt) / 7

/-- Zero-pad to two digits (`%m`, `%d`, `%W`). -/
def pad2 (n : Nat) : String :=
  if n < 10 then "0" ++ toString n else toString n

/-- Zero-pad to four digits (`%Y` for the years in scope). -/
def pad4 (n : Nat) : String :=
  if n < 10 then "000" ++ toString n
  else if n < 100 then "00" ++ toString n
  else if n < 1000 then "0" ++ toString n
  else toString n

/-- `strftime('%Y-%m-%d', date)`. -/
def fmtDay (dt : Date) : String :=
  pad4 dt.y ++ "-" ++ pad2 dt.m ++ "-" ++ pad2 dt.d

/-- `strftime('%Y-%m', date)`. -/
def fmtMonth (dt : Date) : String :=
  pad4 dt.y ++ "-" ++ pad2 dt.m

/-- `strftime('%Y-%W', date)`. -/
def fmtWeek (dt : Date) : String :=
  pad4 dt.y ++ "-" ++ pad2 (sqliteWeekOfYear dt)

/-- Modelled from the spec: ISO-8601 weekday, Monday = 1 … Sunday = 7. -/
def isoWeekday (dt : Date) : Nat :=
  let w := (dayNumber dt + 3) % 7
  if w = 0 then 7 else w

/-- Modelled from the spec: number of ISO weeks in a year (53 when Jan 1 is a
Thursday, or a Wednesday in a leap year; else 52). -/
def isoWeeksInYear (y : Nat) : Nat :=
  let jan1 := isoWeekday ⟨y, 1, 1⟩
  if jan1 = 4 ∨ (isLeap y ∧ jan1 = 3) then 53 else 52

/-- Modelled from the spec: the ISO-8601 week-of-year number of a date
(the week containing the year's first Thursday is week 01; leading days belong
to the last week of the previous ISO year). -/
def isoWeekOfYear (dt : Date) : Nat :=
  let wk := (dayOfYear0 dt + 1 + 10 - isoWeekday dt) / 7
  if wk = 0 then isoWeeksInYear (dt.y - 1)
  else if isoWeeksInYear dt.y < wk then 1
  else wk

/-! ### `analyzeSpending` — `time_trend` (sqlite-adapter.js lines 578-610) -/

/-- The `period` argument of `time_trend`: window bounds plus the optional
`grouping` (destructured with default `'month'`). -/
structure TTPeriod where
  startDate : Date
  endDate : Date
  grouping : Option String
  deriving DecidableEq

/-- `switch (grouping)`: `day`/`week`/`month` select a date format, anything
else falls into the `default:` branch, which is the month format. -/
def trendDateFormat (grouping : Option String) : Date → String :=
  match grouping.getD "month" with
  | "day" => fmtDay
  | "week" => fmtWeek
  | "month" => fmtMonth
  | _ => fmtMonth

/-- Row set of the trend query: windowed transactions passing the optional
`transaction_type` filter (no join is involved). -/
def ttFiltered (st : Store) (p : TTPeriod) (f : ASFilters) : List Txn :=
  st.transactions.filter fun t =>
    inWindow ⟨p.startDate, p.endDate⟩ t && matchesTypeFilter f t

/-- One bucket row of the `time_trend` result. -/
structure TTRow where
  period : String
  expenses : ℚ
  income : ℚ
  transaction_count : Nat
  deriving DecidableEq

/-- The `time_trend` response (`grouping` echoes the destructured value). -/
structure TTResult where
  trends : List TTRow
  grouping : String
  deriving DecidableEq

/-- `analyzeSpending('time_trend', period, filters)`:
`GROUP BY strftime(fmt, date) ORDER BY period`, with per-bucket
`SUM(CASE WHEN type='expense' ...)`, `SUM(CASE WHEN type='income' ...)` and
`COUNT`. -/
def timeTrend (st : Store) (p : TTPeriod) (f : ASFilters) : TTResult :=
  let bucket := trendDateFormat p.grouping
  let rowsIn := ttFiltered st p f
  let keys := List.insertionSort (· ≤ ·) ((rowsIn.map fun t => bucket t.date).dedup)
  { trends := keys.map fun k =>
      let group := rowsIn.filter fun t => bucket t.date == k
      { period := k,
        expenses := ((group.filter fun t => t.type == "expense").map (·.amount)).sum,
        income := ((group.filter fun t => t.type == "income").map (·.amount)).sum,
        transaction_count := group.length }
    grouping := p.grouping.getD "month" }

/-! ### `getRecordDetails` (sqlite-methods.js lines 116-209) -/

/-- A transaction row joined with its category and ledger display fields
(`SELECT t.*, c.name, c.type, l.name, l.type`). -/
structure JoinedTxn where
  txn : Txn
  category_name : String
  category_type : String
  ledger_name : String
  ledger_type : String
  deriving DecidableEq

/-- A related transaction row (`SELECT t.*, c.name as category_name`). -/
structure RelatedTxn where
  txn : Txn
  category_name : String
  deriving DecidableEq

/-- A budget row joined with its category display fields. -/
structure JoinedBudget where
  budget : Budget
  category_name : String
  category_type : String
  deriving DecidableEq

/-- One row of the budget `monthly_spending` aggregation. -/
structure DailySpend where
  date : Date
  daily_total : ℚ
  deriving DecidableEq

/-- `ORDER BY t.date DESC` on joined related rows. -/
def relGe (a b : RelatedTxn) : Prop := dateLe b.txn.date a.txn.date = true

instance : DecidableRel relGe := fun a b =>
  inferInstanceAs (Decidable (dateLe b.txn.date a.txn.date = true))

/-- The single-transaction lookup: `WHERE t.id = ?` under the inner joins
(`none` when no transaction has the id, or its category or ledger is missing). -/
def lookupJoinedTxn (st : Store) (recordId : String) : Option JoinedTxn :=
  match st.transactions.find? (fun t => t.id == recordId) with
  | none => none
  | some t =>
    match findCategory st t.category_id, findLedger st t.ledger_id with
    | some c, some l => some ⟨t, c.name, c.type, l.name, l.type⟩
    | _, _ => none

/-- The single-budget lookup under its category join. -/
def lookupJoinedBudget (st : Store) (recordId : String) : Option JoinedBudget :=
  match st.budgets.find? (fun b => b.id == recordId) with
  | none => none
  | some b => (findCategory st b.category_id).map fun c => ⟨b, c.name, c.type⟩

/-- Related same-category transactions of a transaction record: joined,
excluding the record itself, newest first, limited to 5. -/
def relatedSameCategory (st : Store) (catId recordId : String) : List RelatedTxn :=
  let rows := (st.transactions.filter fun t2 =>
      t2.category_id == catId && t2.id != recordId).filterMap fun t2 =>
    (findCategory st t2.category_id).map fun c => RelatedTxn.mk t2 c.name
  (List.insertionSort relGe rows).take 5

/-- A ledger's recent transactions: joined, newest first, limited to 10. -/
def recentLedgerTxns (st : Store) (recordId : String) : List RelatedTxn :=
  let rows := (st.transactions.filter fun t2 => t2.ledger_id == recordId).filterMap fun t2 =>
    (findCategory st t2.category_id).map fun c => RelatedTxn.mk t2 c.name
  (List.insertionSort relGe rows).take 10

/-- `ORDER BY t.date DESC` on daily-spend rows. -/
def dailyGe (a b : DailySpend) : Prop := dateLe b.date a.date = true

instance : DecidableRel dailyGe := fun a b =>
  inferInstanceAs (Decidable (dateLe b.date a.date = true))

/-- The budget record's current-month daily expense totals (`currentMonth` is
the `new Date().toISOString().slice(0, 7)` year/month pair; the textual range
`[YYYY-MM-01, YYYY-MM-31]` covers the whole month). -/
def monthlySpending (st : Store) (catId : String) (nowY nowM : Nat) : List DailySpend :=
  let rows := st.transactions.filter fun t =>
    t.category_id == catId && (t.type == "expense")
      && dateLe ⟨nowY, nowM, 1⟩ t.date && dateLe t.date ⟨nowY, nowM, 31⟩
  let days := (rows.map (·.date)).dedup
  List.insertionSort dailyGe (days.map fun dt =>
    ⟨dt, ((rows.filter fun t => t.date == dt).map (·.amount)).sum⟩)

/-- The discriminated result of `getRecordDetails`, per record type; the
optional component is present exactly when `includeRelated` was set. -/
inductive RecordDetails
  | txnDetails (transaction : JoinedTxn) (related_transactions : Option (List RelatedTxn))
  | ledgerDetails (ledger : Ledger) (recent_transactions : Option (List RelatedTxn))
  | budgetDetails (budget : JoinedBudget) (monthly_spending : Option (List DailySpend))
  deriving DecidableEq

/-- `getRecordDetails(recordType, recordId, includeRelated)`; thrown errors are
modelled as `Except.error` of the thrown message.  `nowY`/`nowM` abstract the
clock read used by the budget branch. -/
def getRecordDetails (st : Store) (recordType recordId : String) (includeRelated : Bool)
    (nowY nowM : Nat) : Except String RecordDetails :=
  if recordType = "transaction" then
    match lookupJoinedTxn st recordId with
    | none => .error ("Transaction not found: " ++ recordId)
    | some jt =>
      .ok (.txnDetails jt
        (if includeRelated then some (relatedSameCategory st jt.txn.category_id recordId) else none))
  else if recordType = "ledger_record" then
    match findLedger st recordId with
    | none => .error ("Ledger not found: " ++ recordId)
    | some l =>
      .ok (.ledgerDetails l
        (if includeRelated then some (recentLedgerTxns st recordId) else none))
  else if recordType = "budget_snapshot" then
    match lookupJoinedBudget st recordId with
    | none => .error ("Budget not found: " ++ recordId)
    | some jb =>
      .ok (.budgetDetails jb
        (if includeRelated then some (monthlySpending st jb.budget.category_id nowY nowM) else none))
  else
    .error ("Unknown record_type: " ++ recordType)

/-! ### `formatExportData`, CSV branch (utils/helpers.js lines 288-310) -/

/-- A JSON scalar as it occurs in an export row: string, integral number, or
null/absent. -/
inductive JsVal
  | s (v : String)
  | n (v : Int)
  | null
  deriving DecidableEq

/-- JavaScript falsiness of a scalar (`''`, `0`, `null`/`undefined`). -/
def jsFalsy : JsVal → Bool
  | .s v => v == ""
  | .n v => v == 0
  | .null => true

/-- `value.toString()` for the scalars in scope. -/
def jsValToString : JsVal → String
  | .s v => v
  | .n v => toString v
  | .null => "null"

/-- A flat record: ordered key/value pairs. -/
abbrev JsRecord := List (String × JsVal)

/-- `row[header]`: the first binding of the key, `null` (undefined) if absent. -/
def jsLookup (row : JsRecord) (k : String) : JsVal :=
  match row.find? (fun p => p.1 == k) with
  | some p => p.2
  | none => .null

/-- `/"/g` replacement: double every double-quote character. -/
def doubleQuotesChars : List Char → List Char
  | [] => []
  | c :: cs =>
    if c = '\"' then '\"' :: '\"' :: doubleQuotesChars cs else c :: doubleQuotesChars cs

/-- `s.replace(/"/g, '""')` as a character-level map. -/
def doubleQuotes (s : String) : String :=
  ⟨doubleQuotesChars s.data⟩

/-- One CSV cell: `"${(row[header] || '').toString().replace(/"/g, '""')}"` —
falsy values render as the empty string, everything is double-quoted with
embedded quotes doubled. -/
def csvCell (v : JsVal) : String :=
  "\"" ++ (if jsFalsy v then "" else doubleQuotes (jsValToString v)) ++ "\""

/-- The `data` argument as the CSV branch sees it: a flat array of records, or
anything that is not an array. -/
inductive JsData
  | arr (rows : List JsRecord)
  | notArray
  deriving DecidableEq

/-- The `case 'csv'` branch of `formatExportData`: reject non-arrays, empty
array yields `''`, otherwise header row from the first record's keys followed
by one quoted row per record, joined with newlines. -/
def formatExportCsv (data : JsData) : Except String String :=
  match data with
  | .notArray => .error "CSV format requires array data"
  | .arr [] => .ok ""
  | .arr (r0 :: rs) =>
    let headers := r0.map (·.1)
    let csvHeaders := String.intercalate "," headers
    let csvRows := (r0 :: rs).map fun row =>
      String.intercalate "," (headers.map fun h => csvCell (jsLookup row h))
    .ok (String.intercalate "\n" (csvHeaders :: csvRows))

/-! ### `buildCategoryTree` (utils/helpers.js lines 183-200) -/

/-- A node of the category tree: the category with its collected children. -/
inductive CatNode
  | mk (cat : Category) (children : List CatNode)

/-- The category of a node. -/
def CatNode.cat : CatNode → Category
  | .mk c _ => c

/-- The children of a node. -/
def CatNode.children : CatNode → List CatNode
  | .mk _ cs => cs

/-- Whether `cat.parent_id && tree[cat.parent_id]` holds: a truthy parent id
that is the id of some input category. -/
def parentPresent (cats : List Category) (c : Category) : Bool :=
  jsOptStrTruthy c.parent_id && (cats.map (·.id)).contains (c.parent_id.getD "")

/-- The categories pushed into `tree[pid].children`, in input order. -/
def childrenOf (cats : List Category) (pid : String) : List Category :=
  cats.filter fun c => jsOptStrTruthy c.parent_id && (c.parent_id.getD "" == pid)

/-- The categories pushed into `roots`, in input order. -/
def rootCats (cats : List Category) : List Category :=
  cats.filter fun c => !parentPresent cats c

/-- The node for one category, children recursively attached.  JavaScript
builds this by mutation with no depth bound; the explicit `fuel` is immaterial
once parent references are acyclic (then depth `cats.length` suffices), and in
the cyclic case JavaScript's object graph is itself cyclic. -/
def buildNode (cats : List Category) : Nat → Category → CatNode
  | 0, c => .mk c []
  | fuel + 1, c => .mk c ((childrenOf cats c.id).map (buildNode cats fuel))

/-- `buildCategoryTree(categories)`: the forest of root nodes. -/
def buildCategoryTree (cats : List Category) : List CatNode :=
  (rootCats cats).map (buildNode cats cats.length)

mutual

/-- All categories occurring in a node, preorder. -/
def flattenNode : CatNode → List Category
  | .mk c children => c :: flattenForest children

/-- All categories occurring in a forest, preorder. -/
def flattenForest : List CatNode → List Category
  | [] => []
  | n :: ns => flattenNode n ++ flattenForest ns

end

/-! ### Concrete sample data used by witnesses and counterexamples -/

def catFood : Category := ⟨"food", "Food & Dining", "expense", none, "", true⟩

def catSalary : Category := ⟨"salary", "Salary", "income", none, "", true⟩

def ledgerChecking : Ledger := ⟨"checking", "Primary Checking", "checking", 2500, "USD", true⟩

def budgetFood : Budget := ⟨"budget_food", "food", 100, "monthly", ⟨2024, 1, 1⟩, none, true⟩

def txnFood10 : Txn := ⟨"txn_001", "expense", 10, "food", "checking", "Groceries A", ⟨2024, 1, 5⟩, ""⟩

def txnFood20 : Txn := ⟨"txn_002", "expense", 20, "food", "checking", "Groceries B", ⟨2024, 1, 6⟩, ""⟩

def txnFood30 : Txn := ⟨"txn_003", "expense", 30, "food", "checking", "Groceries C", ⟨2024, 1, 7⟩, ""⟩

/-- The spec's §8 example store: three expense transactions of 10, 20, 30 in
category `food`, which carries a budget of 100. -/
def sampleStore : Store :=
  ⟨[catFood], [ledgerChecking], [budgetFood], [txnFood10, txnFood20, txnFood30]⟩

/-- A window covering the three sample transactions. -/
def samplePeriod : AnalysisPeriod := ⟨⟨2024, 1, 1⟩, ⟨2024, 1, 31⟩⟩

/-- Empty `analyze_spending` filters. -/
def noFilters : ASFilters := ⟨none, none⟩

/-- `query_transactions` options requesting `limit = 500`. -/
def qtOpts500 : QTOptions :=
  ⟨"all", ⟨none, none, none, none, none, none, none⟩, ⟨some 1, some 500⟩, ⟨none, none⟩⟩

/-- The spec's §8 example variance row: budget 100, actual 60, variance −40,
percentage −40, status "under". -/
def sampleBVRow : BVRow :=
  ⟨"budget_food", 100, "monthly", "Food & Dining", "food", 60, -40, -40, "under"⟩

/-! ### C4 and C5 -/

/-- Proof-side classifier: the error message (if any) that one batch item
produces; it reads only the item and the `categories`/`ledgers` tables. -/
def itemError (st : Store) (t : InputTxn) : Option String :=
  let verrs := validateTransaction t
  if verrs ≠ [] then some (String.intercalate ", " verrs)
  else
    let catId := t.category.getD ""
    match findCategory st catId with
    | none => some ("Category not found: " ++ catId)
    | some _ =>
      let lid := if jsOptStrTruthy t.ledger_id then t.ledger_id.getD "" else "checking"
      match findLedger st lid with
      | none => some ("Ledger not found: " ++ lid)
      | some _ => none

/-- A deterministic id generator standing in for `generateId('txn')`. -/
def wGenId : Nat → String := fun i => "txn_w" ++ toString i

/-- `formatDate` at the inputs exercised below, with a fixed clock: a missing
date yields the current day, and JavaScript's `new Date(s).toISOString()`
throws `RangeError: Invalid time value` on the unparseable string
`"not-a-date"`. -/
def jsFmtDate : Option String → Except String Date
  | none => .ok ⟨2024, 1, 15⟩
  | some s => if s = "not-a-date" then .error "Invalid time value" else .ok ⟨2024, 1, 15⟩

/-- A batch item that passes validation and lookups but carries an
unparseable date string. -/
def badDateItem : InputTxn :=
  ⟨some "expense", some 5, some "food", none, none, some "not-a-date", none⟩

/-- A batch item that validates against `sampleStore`. -/
def goodItem : InputTxn := ⟨some "expense", some 5, some "food", none, none, none, none⟩

/-- A batch item whose category does not exist in `sampleStore`. -/
def badItem : InputTxn := ⟨some "expense", some 5, some "nope", none, none, none, none⟩

/-- A sample export row with an embedded double quote. -/
def exportRow1 : JsRecord := [("id", .s "t1"), ("description", .s "say \"hi\"")]

/-- A second sample export row. -/
def exportRow2 : JsRecord := [("id", .s "t2"), ("description", .s "plain")]

/-! ### C6 -/

/-- A transaction dated 2023-01-01 (a Sunday: strftime week 00, ISO week 52 of
2022). -/
def isoTxn : Txn := ⟨"txn_iso", "expense", 5, "food", "checking", "New year", ⟨2023, 1, 1⟩, ""⟩

/-- Store for the week-numbering counterexample. -/
def isoStore : Store := ⟨[catFood], [ledgerChecking], [], [isoTxn]⟩

/-- A one-week window with `grouping = 'week'`. -/
def isoTTPeriod : TTPeriod := ⟨⟨2023, 1, 1⟩, ⟨2023, 1, 7⟩, some "week"⟩

/-! ### C7 -/

/-- An income transaction inside the window. -/
def c7Txn : Txn := ⟨"txn_inc", "income", 100, "salary", "checking", "Pay", ⟨2024, 1, 10⟩, ""⟩

/-- A store holding only that income transaction. -/
def c7Store : Store := ⟨[catSalary], [ledgerChecking], [], [c7Txn]⟩

/-- A store mixing one expense and one income transaction. -/
def mixStore : Store := ⟨[catFood, catSalary], [ledgerChecking], [], [txnFood10, c7Txn]⟩

/-- Filters restricting the analysis to expenses. -/
def expFilters : ASFilters := ⟨some "expense", none⟩

/-- The single group row of the filtered mixed-store breakdown. -/
def mixBreakdownRow : CBRow := ⟨"Food & Dining", "food", "expense", 10, 1, 10, 100⟩

/-! ### C10 -/

/-- Upward parent chains: `ChainN cats c x k` holds when starting at `x` and
following parent links (through categories present in the input) `k` times
reaches `c`. -/
inductive ChainN (cats : List Category) (c : Category) : Category → Nat → Prop
  | refl : ChainN cats c c 0
  | step (x P : Category) (k : Nat) :
      jsOptStrTruthy x.parent_id = true →
      P ∈ cats → P.id = x.parent_id.getD "" →
      ChainN cats c P k →
      ChainN cats c x (k + 1)

/-- C10 counterexample: a self-parenting category is silently dropped —
`buildCategoryTree` returns an empty forest, so the category appears zero
times rather than exactly once. -/
def cycCat : Category := ⟨"a", "Cycle", "expense", some "a", "", true⟩

/-- A child category of `food`. -/
def catGroceries : Category := ⟨"groceries", "Groceries", "expense", some "food", "", true⟩

/-- A two-level acyclic category list. -/
def treeCats : List Category := [catFood, catGroceries]

/-- A rank certificate for `treeCats`. -/
def treeRank : String → Nat := fun s => if s = "food" then 0 else 1

/-! ## Theorems -/

/-! ### Shared helper lemmas -/

/-- Rounding to two decimals moves a rational by at most `1/200`. -/
theorem round2_abs_sub_le (q : ℚ) : |round2 q - q| ≤ 1 / 200 := by
  have h := abs_sub_round (q * 100)
  have e : round2 q - q = -((q * 100 - ((round (q * 100) : ℤ) : ℚ)) / 100) := by
    unfold round2; ring
  rw [e, abs_neg, abs_div]
  have h100 : |(100 : ℚ)| = 100 := by norm_num
  rw [h100]
  linarith

/-- Rounding each summand to two decimals moves a list sum by at most
`length / 200`. -/
theorem abs_sum_map_round2_sub_le (l : List ℚ) :
    |(l.map round2).sum - l.sum| ≤ (l.length : ℚ) / 200 := by
  induction l with
  | nil => simp
  | cons x xs ih =>
    simp only [List.map_cons, List.sum_cons, List.length_cons]
    have e : round2 x + (xs.map round2).sum - (x + xs.sum)
        = (round2 x - x) + ((xs.map round2).sum - xs.sum) := by ring
    rw [e]
    have h1 := round2_abs_sub_le x
    have tri := abs_add (round2 x - x) ((xs.map round2).sum - xs.sum)
    push_cast
    linarith

/-- Factor a common `/ t * c` out of a list sum. -/
theorem sum_map_div_mul (l : List ℚ) (t c : ℚ) :
    (l.map fun x => x / t * c).sum = l.sum / t * c := by
  induction l with
  | nil => simp
  | cons x xs ih =>
    simp only [List.map_cons, List.sum_cons, ih]
    ring

/-! ### C3 -/

/-- C3: for every store state and every `query_transactions` options object,
the reported `has_next` is true iff `page × effective_limit < total`, the
effective limit is `min(requested_limit, 100)` (requested limit defaulting to
50), and in particular a requested limit of 500 is clamped to 100. -/
theorem queryTransactions_pagination_c3 (st : Store) (o : QTOptions) :
    ((queryTransactions st o).pagination.has_next = true ↔
      (queryTransactions st o).pagination.page * min (o.pagination.limit.getD 50) 100
        < (queryTransactions st o).pagination.total)
    ∧ (queryTransactions st o).pagination.limit = min (o.pagination.limit.getD 50) 100
    ∧ (o.pagination.limit = some 500 → (queryTransactions st o).pagination.limit = 100) := by
  refine ⟨?_, rfl, ?_⟩
  · simp [queryTransactions]
  · intro h
    simp [queryTransactions, h]

/-- C3 witness: a concrete query requesting `limit = 500` gets effective
limit 100. -/
theorem queryTransactions_pagination_c3_witness :
    (queryTransactions sampleStore qtOpts500).pagination.limit = 100 :=
  (queryTransactions_pagination_c3 sampleStore qtOpts500).2.2 rfl

/-! ### C1 -/

/-- Each breakdown row's total is the sum of the matched amounts of its
category. -/
theorem cbRows_total_eq (st : Store) (p : AnalysisPeriod) (f : ASFilters) {row : CBRow}
    (h : row ∈ cbRows st p f) :
    row.total_amount
      = (((cbFiltered st p f).filter fun t => t.category_id == row.category_id).map
          (·.amount)).sum := by
  unfold cbRows at h
  rw [List.Perm.mem_iff (List.perm_insertionSort _ _)] at h
  rw [List.mem_filterMap] at h
  obtain ⟨cid, _, hmap⟩ := h
  rw [Option.map_eq_some'] at hmap
  obtain ⟨c, hc, hrow⟩ := hmap
  have hcid : c.id = cid := by
    have := List.find?_some hc
    simpa using this
  subst hrow
  simp [hcid]

/-- With positive amounts every breakdown row total is nonnegative. -/
theorem cbRows_total_nonneg (st : Store) (p : AnalysisPeriod) (f : ASFilters)
    (hpos : ∀ t ∈ st.transactions, 0 < t.amount) {row : CBRow}
    (h : row ∈ cbRows st p f) : 0 ≤ row.total_amount := by
  rw [cbRows_total_eq st p f h]
  apply List.sum_nonneg
  intro x hx
  rw [List.mem_map] at hx
  obtain ⟨t, ht, rfl⟩ := hx
  have ht1 : t ∈ cbFiltered st p f := (List.mem_filter.mp ht).1
  have ht2 : t ∈ st.transactions := by
    unfold cbFiltered at ht1
    exact (List.mem_filter.mp ht1).1
  exact le_of_lt (hpos t ht2)

/-- C1: for every store state (with the data-model invariant that transaction
amounts are positive) and every window, `category_breakdown` returns a
`total_amount` equal to the sum of the per-category `total_amount` values;
when that grand total is nonzero each group's `percentage` is its total over
the grand total times 100 rounded to two decimals, and the percentages sum to
100 up to rounding (at most `1/200` per group); when the grand total is zero
every group's `percentage` is 0. -/
theorem categoryBreakdown_c1 (st : Store) (p : AnalysisPeriod) (f : ASFilters)
    (hpos : ∀ t ∈ st.transactions, 0 < t.amount) :
    (categoryBreakdown st p f).total_amount
        = ((categoryBreakdown st p f).breakdown.map (·.total_amount)).sum
    ∧ ((categoryBreakdown st p f).total_amount ≠ 0 →
        (∀ row ∈ (categoryBreakdown st p f).breakdown,
          row.percentage
            = round2 (row.total_amount / (categoryBreakdown st p f).total_amount * 100))
        ∧ |((categoryBreakdown st p f).breakdown.map (·.percentage)).sum - 100|
            ≤ ((categoryBreakdown st p f).breakdown.length : ℚ) / 200)
    ∧ ((categoryBreakdown st p f).total_amount = 0 →
        ∀ row ∈ (categoryBreakdown st p f).breakdown, row.percentage = 0) := by
  have hcb : categoryBreakdown st p f
      = ⟨(cbRows st p f).map (fun item =>
          { item with percentage :=
              if 0 < ((cbRows st p f).map (·.total_amount)).sum then
                round2 (item.total_amount / ((cbRows st p f).map (·.total_amount)).sum * 100)
              else 0 }),
         ((cbRows st p f).map (·.total_amount)).sum⟩ := rfl
  have hTnn : 0 ≤ ((cbRows st p f).map (·.total_amount)).sum := by
    apply List.sum_nonneg
    intro x hx
    rw [List.mem_map] at hx
    obtain ⟨r, hr, rfl⟩ := hx
    exact cbRows_total_nonneg st p f hpos hr
  have hc1 : (categoryBreakdown st p f).total_amount
      = ((categoryBreakdown st p f).breakdown.map (·.total_amount)).sum := by
    rw [hcb]
    simp only [List.map_map]
    exact congrArg List.sum (List.map_congr_left fun r _ => rfl)
  refine ⟨hc1, ?_, ?_⟩
  · intro hne
    rw [hcb] at hne
    have hpos' : 0 < ((cbRows st p f).map (·.total_amount)).sum :=
      lt_of_le_of_ne hTnn (Ne.symm hne)
    constructor
    · intro row hrow
      rw [hcb] at hrow ⊢
      simp only [List.mem_map] at hrow
      obtain ⟨r, _, rfl⟩ := hrow
      show (if 0 < ((cbRows st p f).map (·.total_amount)).sum then
          round2 (r.total_amount / ((cbRows st p f).map (·.total_amount)).sum * 100) else 0)
        = round2 (r.total_amount / ((cbRows st p f).map (·.total_amount)).sum * 100)
      exact if_pos hpos'
    · rw [hcb]
      simp only [List.map_map, List.length_map]
      have hmap : ((cbRows st p f).map ((fun row : CBRow => row.percentage) ∘ fun item : CBRow =>
          { item with percentage :=
              if 0 < ((cbRows st p f).map (·.total_amount)).sum then
                round2 (item.total_amount / ((cbRows st p f).map (·.total_amount)).sum * 100)
              else 0 }))
          = (((cbRows st p f).map (·.total_amount)).map
              fun x => x / ((cbRows st p f).map (·.total_amount)).sum * 100).map round2 := by
        simp only [List.map_map]
        apply List.map_congr_left
        intro r _
        simp only [Function.comp_apply, if_pos hpos']
      rw [hmap]
      have hsum : (((cbRows st p f).map (·.total_amount)).map
          fun x => x / ((cbRows st p f).map (·.total_amount)).sum * 100).sum = 100 := by
        rw [sum_map_div_mul, div_self hpos'.ne']
        ring
      have hlen : ((((cbRows st p f).map (·.total_amount)).map
          fun x => x / ((cbRows st p f).map (·.total_amount)).sum * 100).length : ℚ)
          = ((cbRows st p f).length : ℚ) := by
        simp
      calc |(((((cbRows st p f).map (·.total_amount)).map
              fun x => x / ((cbRows st p f).map (·.total_amount)).sum * 100).map round2).sum
            - 100)|
          = |(((((cbRows st p f).map (·.total_amount)).map
                fun x => x / ((cbRows st p f).map (·.total_amount)).sum * 100).map round2).sum
              - ((((cbRows st p f).map (·.total_amount)).map
                  fun x => x / ((cbRows st p f).map (·.total_amount)).sum * 100)).sum)| := by
            rw [hsum]
        _ ≤ (((((cbRows st p f).map (·.total_amount)).map
              fun x => x / ((cbRows st p f).map (·.total_amount)).sum * 100).length : ℚ)) / 200 :=
            abs_sum_map_round2_sub_le _
        _ = (((cbRows st p f).length : ℚ)) / 200 := by rw [hlen]
  · intro hzero row hrow
    rw [hcb] at hrow hzero
    simp only [List.mem_map] at hrow
    obtain ⟨r, _, rfl⟩ := hrow
    have hzero' : ((cbRows st p f).map (·.total_amount)).sum = 0 := hzero
    have hnotpos : ¬ (0 < ((cbRows st p f).map (·.total_amount)).sum) := by
      rw [hzero']
      exact lt_irrefl 0
    show (if 0 < ((cbRows st p f).map (·.total_amount)).sum then
        round2 (r.total_amount / ((cbRows st p f).map (·.total_amount)).sum * 100) else 0) = 0
    exact if_neg hnotpos

/-- C1 witness: on the spec's §8 example store the grand total is the sum of
the group totals and equals 60, with a single group at percentage 100. -/
theorem categoryBreakdown_c1_witness :
    (∀ t ∈ sampleStore.transactions, 0 < t.amount)
    ∧ (categoryBreakdown sampleStore samplePeriod noFilters).total_amount
        = ((categoryBreakdown sampleStore samplePeriod noFilters).breakdown.map
            (·.total_amount)).sum
    ∧ (categoryBreakdown sampleStore samplePeriod noFilters).total_amount = 60
    ∧ ((categoryBreakdown sampleStore samplePeriod noFilters).breakdown.map (·.percentage))
        = [100] := by
  refine ⟨by decide, (categoryBreakdown_c1 sampleStore samplePeriod noFilters (by decide)).1,
    ?_, ?_⟩
  · norm_num [categoryBreakdown, cbRows, cbFiltered, sampleStore, samplePeriod, noFilters,
      findCategory, matchesTypeFilter, matchesCatFilter, jsOptStrTruthy, inWindow, dateLe,
      txnFood10, txnFood20, txnFood30, catFood, List.insertionSort, List.orderedInsert, cbGE]
  · norm_num [categoryBreakdown, cbRows, cbFiltered, sampleStore, samplePeriod, noFilters,
      findCategory, matchesTypeFilter, matchesCatFilter, jsOptStrTruthy, inWindow, dateLe,
      txnFood10, txnFood20, txnFood30, catFood, round2, List.insertionSort,
      List.orderedInsert, cbGE, round]

/-! ### C2 -/

/-- `round2` fixes integral values. -/
theorem round2_intCast (n : ℤ) : round2 ((n : ℚ)) = (n : ℚ) := by
  unfold round2
  have h : ((n : ℚ)) * 100 = ((n * 100 : ℤ) : ℚ) := by push_cast; ring
  rw [h, round_intCast]
  push_cast
  ring

/-- `round2 (-40) = -40`, needed to evaluate the sample variance row. -/
theorem round2_neg_forty : round2 (-40 : ℚ) = -40 := by
  have h : ((-40 : ℚ)) = (((-40 : ℤ)) : ℚ) := by norm_num
  rw [h, round2_intCast]

/-- C2: for every store state (with nonnegative budget caps, per the data
model) and every window, each `budget_variance` row reports status `"over"`
iff `actual_amount > budgeted_amount` and `"under"` otherwise; `variance`
equals `actual − budgeted`; and `variance_percentage` is 0 when
`budgeted_amount` is 0 and otherwise `(actual − budgeted)/budgeted × 100`
rounded to two decimals. -/
theorem budgetVariance_c2 (st : Store) (p : AnalysisPeriod)
    (hb : ∀ b ∈ st.budgets, 0 ≤ b.amount) :
    ∀ row ∈ budgetVariance st p,
      (row.status = "over" ∨ row.status = "under")
      ∧ (row.status = "over" ↔ row.budgeted_amount < row.actual_amount)
      ∧ row.variance = row.actual_amount - row.budgeted_amount
      ∧ (row.budgeted_amount = 0 → row.variance_percentage = 0)
      ∧ (row.budgeted_amount ≠ 0 →
          row.variance_percentage
            = round2 ((row.actual_amount - row.budgeted_amount) / row.budgeted_amount * 100)) := by
  intro row hrow
  unfold budgetVariance at hrow
  rw [List.mem_filterMap] at hrow
  obtain ⟨b, hbmem, hmap⟩ := hrow
  rw [Option.map_eq_some'] at hmap
  obtain ⟨c, hc, hrow⟩ := hmap
  subst hrow
  have hbmem' : b ∈ st.budgets := (List.mem_filter.mp hbmem).1
  have hbnn : 0 ≤ b.amount := hb b hbmem'
  dsimp only
  refine ⟨?_, ?_, rfl, ?_, ?_⟩
  · by_cases hlt : b.amount < bvActual st p b.category_id
    · exact Or.inl (if_pos hlt)
    · exact Or.inr (if_neg hlt)
  · by_cases hlt : b.amount < bvActual st p b.category_id
    · rw [if_pos hlt]
      exact ⟨fun _ => hlt, fun _ => rfl⟩
    · rw [if_neg hlt]
      constructor
      · intro h
        exact absurd h (by decide)
      · intro h
        exact absurd h hlt
  · intro h0
    rw [if_neg]
    rw [h0]
    exact lt_irrefl 0
  · intro hne0
    have hpos : (0 : ℚ) < b.amount := lt_of_le_of_ne hbnn (Ne.symm hne0)
    rw [if_pos hpos]

/-- C2 witness: on the spec's §8 example store the single variance row is the
expected one and its status bi-implication holds concretely. -/
theorem budgetVariance_c2_witness :
    sampleBVRow ∈ budgetVariance sampleStore samplePeriod
    ∧ (sampleBVRow.status = "over" ↔ sampleBVRow.budgeted_amount < sampleBVRow.actual_amount) := by
  have hmem : sampleBVRow ∈ budgetVariance sampleStore samplePeriod := by
    norm_num [budgetVariance, bvActual, sampleStore, samplePeriod, findCategory, inWindow,
      dateLe, budgetFood, catFood, txnFood10, txnFood20, txnFood30, sampleBVRow,
      round2_neg_forty]
  exact ⟨hmem, (budgetVariance_c2 sampleStore samplePeriod (by decide) sampleBVRow hmem).2.1⟩

/-- A failing item leaves the store alone and yields the classified error. -/
theorem processOne_eq_error (genId : Nat → String)
    (fmtDate : Option String → Except String Date)
    (vo : Bool) (st : Store) (i : Nat) (t : InputTxn) (msg : String)
    (h : itemError st t = some msg) :
    processOne genId fmtDate vo st i t = (st, .inr ⟨i, msg, t⟩) := by
  simp only [itemError] at h
  simp only [processOne]
  by_cases hv : validateTransaction t ≠ []
  · simp only [if_pos hv] at h ⊢
    injection h with h
    subst h
    rfl
  · simp only [if_neg hv] at h ⊢
    cases hfc : findCategory st (t.category.getD "") with
    | none =>
      simp only [hfc] at h ⊢
      injection h with h
      subst h
      rfl
    | some c =>
      simp only [hfc] at h ⊢
      cases hfl : findLedger st
          (if jsOptStrTruthy t.ledger_id then t.ledger_id.getD "" else "checking") with
      | none =>
        simp only [hfl] at h ⊢
        injection h with h
        subst h
        rfl
      | some l =>
        simp only [hfl] at h
        exact absurd h (by simp)

/-- A valid item on a dry run leaves the store alone and yields `'valid'`. -/
theorem processOne_eq_ok_dry (genId : Nat → String)
    (fmtDate : Option String → Except String Date)
    (st : Store) (i : Nat) (t : InputTxn) (h : itemError st t = none) :
    processOne genId fmtDate true st i t = (st, .inl ⟨i, "valid", none, t⟩) := by
  simp only [itemError] at h
  simp only [processOne]
  by_cases hv : validateTransaction t ≠ []
  · simp [if_pos hv] at h
  · simp only [if_neg hv] at h ⊢
    cases hfc : findCategory st (t.category.getD "") with
    | none => simp [hfc] at h
    | some c =>
      simp only [hfc] at h ⊢
      cases hfl : findLedger st
          (if jsOptStrTruthy t.ledger_id then t.ledger_id.getD "" else "checking") with
      | none => simp [hfl] at h
      | some l => simp [hfl]

/-- A valid item whose date formats on a real run appends one row and yields
`'created'`. -/
theorem processOne_eq_ok_wet (genId : Nat → String)
    (fmtDate : Option String → Except String Date)
    (st : Store) (i : Nat) (t : InputTxn) (d : Date) (h : itemError st t = none)
    (hfd : fmtDate t.date = Except.ok d) :
    ∃ row : Txn, processOne genId fmtDate false st i t
      = ({ st with transactions := st.transactions ++ [row] },
         .inl ⟨i, "created", some (genId i), t⟩) := by
  simp only [itemError] at h
  simp only [processOne]
  by_cases hv : validateTransaction t ≠ []
  · simp [if_pos hv] at h
  · simp only [if_neg hv] at h ⊢
    cases hfc : findCategory st (t.category.getD "") with
    | none => simp [hfc] at h
    | some c =>
      simp only [hfc] at h ⊢
      cases hfl : findLedger st
          (if jsOptStrTruthy t.ledger_id then t.ledger_id.getD "" else "checking") with
      | none => simp [hfl] at h
      | some l =>
        simp only [hfl, hfd]
        exact ⟨_, rfl⟩

/-- A valid item whose date does not format is recorded as a date error on a
real run (the dry run never reaches this point). -/
theorem processOne_eq_dateErr (genId : Nat → String)
    (fmtDate : Option String → Except String Date)
    (st : Store) (i : Nat) (t : InputTxn) (msg : String) (h : itemError st t = none)
    (hfd : fmtDate t.date = Except.error msg) :
    processOne genId fmtDate false st i t = (st, .inr ⟨i, msg, t⟩) := by
  simp only [itemError] at h
  simp only [processOne]
  by_cases hv : validateTransaction t ≠ []
  · simp [if_pos hv] at h
  · simp only [if_neg hv] at h ⊢
    cases hfc : findCategory st (t.category.getD "") with
    | none => simp [hfc] at h
    | some c =>
      simp only [hfc] at h ⊢
      cases hfl : findLedger st
          (if jsOptStrTruthy t.ledger_id then t.ledger_id.getD "" else "checking") with
      | none => simp [hfl] at h
      | some l => simp [hfl, hfd]

/-- Item classification only reads the `categories` and `ledgers` tables. -/
theorem itemError_congr (st st' : Store) (t : InputTxn)
    (hc : st'.categories = st.categories) (hl : st'.ledgers = st.ledgers) :
    itemError st' t = itemError st t := by
  simp only [itemError, findCategory, findLedger, hc, hl]

/-- On a dry run one iteration always hands back the incoming store. -/
theorem processOne_dry_fst (genId : Nat → String)
    (fmtDate : Option String → Except String Date) (st : Store) (i : Nat) (t : InputTxn) :
    (processOne genId fmtDate true st i t).1 = st := by
  cases hcl : itemError st t with
  | some msg => rw [processOne_eq_error genId fmtDate true st i t msg hcl]
  | none => rw [processOne_eq_ok_dry genId fmtDate st i t hcl]

/-- The dry-run batch loop never touches the store. -/
theorem batchGo_dry_store (genId : Nat → String)
    (fmtDate : Option String → Except String Date) :
    ∀ (items : List InputTxn) (i : Nat) (st : Store),
      (batchGo genId fmtDate true st i items).1 = st := by
  intro items
  induction items with
  | nil =>
    intro i st
    rfl
  | cons t rest ih =>
    intro i st
    cases hcl : itemError st t with
    | some msg =>
      simp only [batchGo, processOne_eq_error genId fmtDate true st i t msg hcl]
      exact ih (i + 1) st
    | none =>
      simp only [batchGo, processOne_eq_ok_dry genId fmtDate st i t hcl]
      exact ih (i + 1) st

/-- The batch loop: when `formatDate` accepts every item's date, a real run
from a store with the same `categories`/`ledgers` classifies every item like
the dry run (same success indices, identical error entries). -/
theorem batchGo_dryWet (genId genId' : Nat → String)
    (fmtDate fmtDate' : Option String → Except String Date) :
    ∀ (items : List InputTxn) (i : Nat) (st st' : Store),
      st'.categories = st.categories → st'.ledgers = st.ledgers →
      (∀ t ∈ items, (fmtDate' t.date).isOk = true) →
      (batchGo genId fmtDate true st i items).2.1.map (·.index)
          = (batchGo genId' fmtDate' false st' i items).2.1.map (·.index)
      ∧ (batchGo genId fmtDate true st i items).2.2
          = (batchGo genId' fmtDate' false st' i items).2.2
      ∧ (∀ r ∈ (batchGo genId fmtDate true st i items).2.1, r.status = "valid")
      ∧ (∀ r ∈ (batchGo genId' fmtDate' false st' i items).2.1, r.status = "created") := by
  intro items
  induction items with
  | nil =>
    intro i st st' hc hl _
    refine ⟨rfl, rfl, ?_, ?_⟩ <;> simp [batchGo]
  | cons t rest ih =>
    intro i st st' hc hl hdate
    have hdate' : ∀ u ∈ rest, (fmtDate' u.date).isOk = true := fun u hu =>
      hdate u (List.mem_cons_of_mem _ hu)
    cases hcl : itemError st t with
    | some msg =>
      have e1 := processOne_eq_error genId fmtDate true st i t msg hcl
      have e2 := processOne_eq_error genId' fmtDate' false st' i t msg
        ((itemError_congr st st' t hc hl).trans hcl)
      obtain ⟨h2, h3, h4, h5⟩ := ih (i + 1) st st' hc hl hdate'
      simp only [batchGo, e1, e2]
      exact ⟨h2, by rw [h3], h4, h5⟩
    | none =>
      obtain ⟨d, hd⟩ : ∃ d, fmtDate' t.date = Except.ok d := by
        have h := hdate t (List.mem_cons_self t rest)
        cases hfd : fmtDate' t.date with
        | ok d => exact ⟨d, rfl⟩
        | error msg =>
          rw [hfd] at h
          exact absurd h (by simp [Except.isOk, Except.toBool])
      have e1 := processOne_eq_ok_dry genId fmtDate st i t hcl
      obtain ⟨rowT, e2⟩ := processOne_eq_ok_wet genId' fmtDate' st' i t d
        ((itemError_congr st st' t hc hl).trans hcl) hd
      obtain ⟨h2, h3, h4, h5⟩ := ih (i + 1) st
        { st' with transactions := st'.transactions ++ [rowT] } hc hl hdate'
      simp only [batchGo, e1, e2]
      refine ⟨?_, h3, ?_, ?_⟩
      · simp only [List.map_cons, h2]
      · intro r hr
        rcases List.mem_cons.mp hr with hr | hr
        · rw [hr]
        · exact h4 r hr
      · intro r hr
        rcases List.mem_cons.mp hr with hr | hr
        · rw [hr]
        · exact h5 r hr

/-- C4 counterexample: the dry run never calls `formatDate`, so an item with
an unparseable date string (schema-valid, category and ledger present) is
reported `'valid'` by `validate_only = true` but recorded as the error
`Invalid time value` by a real run on the same store — the per-item statuses
do not match. -/
theorem batchCreate_c4_counterexample :
    (batchCreateTransactions wGenId jsFmtDate sampleStore [badDateItem] true).results.map
        (·.status) = ["valid"]
    ∧ (batchCreateTransactions wGenId jsFmtDate sampleStore [badDateItem] true).errors = []
    ∧ (batchCreateTransactions wGenId jsFmtDate sampleStore [badDateItem] false).results = []
    ∧ (batchCreateTransactions wGenId jsFmtDate sampleStore [badDateItem] false).errors.map
        (fun e => (e.index, e.error)) = [(0, "Invalid time value")] := by
  refine ⟨?_, ?_, ?_, ?_⟩ <;> decide

/-- C4 (amended): `batch_create_transactions` with `validate_only = true`
leaves the store (in particular the transactions table) unchanged, and —
provided `formatDate` accepts every item's date — its per-item outcome
matches a non-dry run from the same store state: the same indices succeed
(as `'valid'` vs `'created'`) and the error entries are identical,
independently of the generated ids and dates.  (An item with an unparseable
date is reported `'valid'` by the dry run but recorded as a date error by the
real run — see the counterexample.) -/
theorem batchCreate_c4_amended (genId genId' : Nat → String)
    (fmtDate fmtDate' : Option String → Except String Date)
    (st : Store) (items : List InputTxn) :
    (batchCreateTransactions genId fmtDate st items true).store = st
    ∧ ((∀ t ∈ items, (fmtDate' t.date).isOk = true) →
        (batchCreateTransactions genId fmtDate st items true).results.map (·.index)
            = (batchCreateTransactions genId' fmtDate' st items false).results.map (·.index)
        ∧ (batchCreateTransactions genId fmtDate st items true).errors
            = (batchCreateTransactions genId' fmtDate' st items false).errors
        ∧ (∀ r ∈ (batchCreateTransactions genId fmtDate st items true).results,
            r.status = "valid")
        ∧ (∀ r ∈ (batchCreateTransactions genId' fmtDate' st items false).results,
            r.status = "created")) :=
  ⟨batchGo_dry_store genId fmtDate items 0 st,
   fun hdate => batchGo_dryWet genId genId' fmtDate fmtDate' items 0 st st rfl rfl hdate⟩

/-- The batch loop emits each processed index exactly once, across the two
output lists. -/
theorem batchGo_indices (genId : Nat → String)
    (fmtDate : Option String → Except String Date) (vo : Bool) :
    ∀ (items : List InputTxn) (st : Store) (i : Nat),
      ((batchGo genId fmtDate vo st i items).2.1.map (·.index)
        ++ (batchGo genId fmtDate vo st i items).2.2.map (·.index)).Perm
        (List.range' i items.length) := by
  intro items
  induction items with
  | nil =>
    intro st i
    simp [batchGo]
  | cons t rest ih =>
    intro st i
    simp only [List.length_cons, List.range'_succ]
    cases hcl : itemError st t with
    | some msg =>
      have e1 := processOne_eq_error genId fmtDate vo st i t msg hcl
      simp only [batchGo, e1]
      have h := ih st (i + 1)
      have hmid : ((batchGo genId fmtDate vo st (i + 1) rest).2.1.map (·.index)
            ++ i :: (batchGo genId fmtDate vo st (i + 1) rest).2.2.map (·.index)).Perm
          (i :: ((batchGo genId fmtDate vo st (i + 1) rest).2.1.map (·.index)
            ++ (batchGo genId fmtDate vo st (i + 1) rest).2.2.map (·.index))) :=
        List.perm_middle
      exact hmid.trans (h.cons i)
    | none =>
      cases vo with
      | true =>
        have e1 := processOne_eq_ok_dry genId fmtDate st i t hcl
        simp only [batchGo, e1]
        exact (ih st (i + 1)).cons i
      | false =>
        cases hfd : fmtDate t.date with
        | ok d =>
          obtain ⟨rowT, e1⟩ := processOne_eq_ok_wet genId fmtDate st i t d hcl hfd
          simp only [batchGo, e1]
          exact (ih { st with transactions := st.transactions ++ [rowT] } (i + 1)).cons i
        | error msg =>
          have e1 := processOne_eq_dateErr genId fmtDate st i t msg hcl hfd
          simp only [batchGo, e1]
          have h := ih st (i + 1)
          have hmid : ((batchGo genId fmtDate false st (i + 1) rest).2.1.map (·.index)
                ++ i :: (batchGo genId fmtDate false st (i + 1) rest).2.2.map (·.index)).Perm
              (i :: ((batchGo genId fmtDate false st (i + 1) rest).2.1.map (·.index)
                ++ (batchGo genId fmtDate false st (i + 1) rest).2.2.map (·.index))) :=
            List.perm_middle
          exact hmid.trans (h.cons i)

/-- C5: a failing batch item does not abort the remaining items — every input
index appears in exactly one of `results`/`errors` (jointly a permutation of
all indices), and the summary satisfies `successful + failed = total` with
`total` the input length. -/
theorem batchCreate_c5 (genId : Nat → String) (fmtDate : Option String → Except String Date)
    (st : Store) (items : List InputTxn) (vo : Bool) :
    ((batchCreateTransactions genId fmtDate st items vo).results.map (·.index)
      ++ (batchCreateTransactions genId fmtDate st items vo).errors.map (·.index)).Perm
      (List.range items.length)
    ∧ (batchCreateTransactions genId fmtDate st items vo).summary.successful
        + (batchCreateTransactions genId fmtDate st items vo).summary.failed
        = (batchCreateTransactions genId fmtDate st items vo).summary.total
    ∧ (batchCreateTransactions genId fmtDate st items vo).summary.total = items.length := by
  have h := batchGo_indices genId fmtDate vo items st 0
  rw [List.range_eq_range']
  refine ⟨h, ?_, rfl⟩
  have hlen := h.length_eq
  simpa using hlen

/-- C4 (amended) witness: a concrete dry run on the sample store with one
valid and one invalid item — both with `formatDate`-acceptable dates — leaves
the store untouched, agrees with the real run on succeeding indices and error
entries, and reports the first item `valid`. -/
theorem batchCreate_c4_amended_witness :
    (∀ t ∈ [goodItem, badItem], (jsFmtDate t.date).isOk = true)
    ∧ (batchCreateTransactions wGenId jsFmtDate sampleStore [goodItem, badItem] true).store
        = sampleStore
    ∧ (batchCreateTransactions wGenId jsFmtDate sampleStore [goodItem, badItem] true).results.map
          (·.index)
        = (batchCreateTransactions wGenId jsFmtDate sampleStore [goodItem, badItem]
            false).results.map (·.index)
    ∧ (batchCreateTransactions wGenId jsFmtDate sampleStore [goodItem, badItem] true).errors
        = (batchCreateTransactions wGenId jsFmtDate sampleStore [goodItem, badItem] false).errors
    ∧ (⟨0, "valid", none, goodItem⟩ : BatchItemResult)
        ∈ (batchCreateTransactions wGenId jsFmtDate sampleStore [goodItem, badItem] true).results
    ∧ ((⟨0, "valid", none, goodItem⟩ : BatchItemResult).status = "valid") :=
  ⟨by decide,
   (batchCreate_c4_amended wGenId wGenId jsFmtDate jsFmtDate sampleStore
     [goodItem, badItem]).1,
   ((batchCreate_c4_amended wGenId wGenId jsFmtDate jsFmtDate sampleStore
     [goodItem, badItem]).2 (by decide)).1,
   ((batchCreate_c4_amended wGenId wGenId jsFmtDate jsFmtDate sampleStore
     [goodItem, badItem]).2 (by decide)).2.1,
   by decide,
   ((batchCreate_c4_amended wGenId wGenId jsFmtDate jsFmtDate sampleStore
     [goodItem, badItem]).2 (by decide)).2.2.1
     ⟨0, "valid", none, goodItem⟩ (by decide)⟩

/-! ### C8 -/

/-- C8: for each record type, `get_record_details` on an id absent from the
store fails with the NotFound message carrying that id, and on a present id
(whose foreign keys resolve, per the schema's FOREIGN KEY constraints) returns
the entity joined with its category/ledger display fields. -/
theorem getRecordDetails_c8 (st : Store) (id : String) (ir : Bool) (nowY nowM : Nat) :
    (st.transactions.find? (fun t => t.id == id) = none →
      getRecordDetails st "transaction" id ir nowY nowM
        = .error ("Transaction not found: " ++ id))
    ∧ (∀ t c l, st.transactions.find? (fun t' => t'.id == id) = some t →
        findCategory st t.category_id = some c → findLedger st t.ledger_id = some l →
        getRecordDetails st "transaction" id ir nowY nowM
          = .ok (.txnDetails ⟨t, c.name, c.type, l.name, l.type⟩
              (if ir then some (relatedSameCategory st t.category_id id) else none)))
    ∧ (findLedger st id = none →
        getRecordDetails st "ledger_record" id ir nowY nowM
          = .error ("Ledger not found: " ++ id))
    ∧ (∀ l, findLedger st id = some l →
        getRecordDetails st "ledger_record" id ir nowY nowM
          = .ok (.ledgerDetails l (if ir then some (recentLedgerTxns st id) else none)))
    ∧ (st.budgets.find? (fun b => b.id == id) = none →
        getRecordDetails st "budget_snapshot" id ir nowY nowM
          = .error ("Budget not found: " ++ id))
    ∧ (∀ b c, st.budgets.find? (fun b' => b'.id == id) = some b →
        findCategory st b.category_id = some c →
        getRecordDetails st "budget_snapshot" id ir nowY nowM
          = .ok (.budgetDetails ⟨b, c.name, c.type⟩
              (if ir then some (monthlySpending st b.category_id nowY nowM) else none))) := by
  refine ⟨?_, ?_, ?_, ?_, ?_, ?_⟩
  · intro h
    simp [getRecordDetails, lookupJoinedTxn, h]
  · intro t c l ht hc hl
    simp [getRecordDetails, lookupJoinedTxn, ht, hc, hl]
  · intro h
    simp [getRecordDetails, h]
  · intro l h
    simp [getRecordDetails, h]
  · intro h
    simp [getRecordDetails, lookupJoinedBudget, h]
  · intro b c hb hc
    simp [getRecordDetails, lookupJoinedBudget, hb, hc]

/-- C8 witness: the spec's §8 example — id `txn_999` is absent and fails with
NotFound carrying the id, while the present `txn_001` returns its joined
record. -/
theorem getRecordDetails_c8_witness :
    sampleStore.transactions.find? (fun t => t.id == "txn_999") = none
    ∧ getRecordDetails sampleStore "transaction" "txn_999" false 2024 1
        = .error "Transaction not found: txn_999"
    ∧ getRecordDetails sampleStore "transaction" "txn_001" false 2024 1
        = .ok (.txnDetails ⟨txnFood10, "Food & Dining", "expense", "Primary Checking",
            "checking"⟩ none) := by
  refine ⟨by decide, ?_, ?_⟩
  · have h := (getRecordDetails_c8 sampleStore "txn_999" false 2024 1).1 (by decide)
    rw [h]
    exact congrArg Except.error (by decide)
  · have h := (getRecordDetails_c8 sampleStore "txn_001" false 2024 1).2.1 txnFood10
      catFood ledgerChecking (by decide) (by decide) (by decide)
    rw [h]
    rfl

/-! ### C9 -/

/-- C9: CSV formatting derives the header row from the keys of the first
record and renders one comma-joined quoted row per record; non-falsy cells are
double-quoted with embedded quotes doubled; missing keys render as the quoted
empty string; every non-array input fails with the diagnostic error. -/
theorem formatExportCsv_c9 (r0 : JsRecord) (rs : List JsRecord) :
    formatExportCsv (.arr (r0 :: rs))
      = .ok (String.intercalate "\n"
          (String.intercalate "," (r0.map (·.1))
            :: (r0 :: rs).map fun row =>
                String.intercalate "," ((r0.map (·.1)).map fun h => csvCell (jsLookup row h))))
    ∧ (∀ v, jsFalsy v = false →
        csvCell v = "\"" ++ doubleQuotes (jsValToString v) ++ "\"")
    ∧ (∀ (row : JsRecord) (k : String), row.find? (fun p => p.1 == k) = none →
        csvCell (jsLookup row k) = "\"\"")
    ∧ formatExportCsv .notArray = .error "CSV format requires array data" := by
  refine ⟨rfl, ?_, ?_, rfl⟩
  · intro v hv
    simp [csvCell, hv]
  · intro row k hk
    simp [csvCell, jsLookup, hk, jsFalsy]

/-- C9 witness: the spec's §8 example — two transactions render as a header
row plus one quoted row each, internal quotes doubled; a missing key renders
as the quoted empty string. -/
theorem formatExportCsv_c9_witness :
    formatExportCsv (.arr [exportRow1, exportRow2])
      = .ok "id,description\n\"t1\",\"say \"\"hi\"\"\"\n\"t2\",\"plain\""
    ∧ csvCell (jsLookup [] "missing") = "\"\"" :=
  ⟨(formatExportCsv_c9 exportRow1 [exportRow2]).1.trans (congrArg Except.ok (by decide)),
   (formatExportCsv_c9 exportRow1 [exportRow2]).2.2.1 [] "missing" (by decide)⟩

/-- C6 counterexample: the week bucket uses SQLite `strftime('%Y-%W')`, not
ISO week numbering — for 2023-01-01 the produced bucket is `2023-00` while the
ISO week-of-year is 52, so the bucket label disagrees with the ISO label under
either choice of year. -/
theorem timeTrend_c6_counterexample :
    ((timeTrend isoStore isoTTPeriod noFilters).trends.map (·.period) = ["2023-00"])
    ∧ isoWeekOfYear ⟨2023, 1, 1⟩ = 52
    ∧ pad4 2023 ++ "-" ++ pad2 (isoWeekOfYear ⟨2023, 1, 1⟩) ≠ "2023-00"
    ∧ pad4 2022 ++ "-" ++ pad2 (isoWeekOfYear ⟨2023, 1, 1⟩) ≠ "2023-00" := by
  refine ⟨?_, by decide, by decide, by decide⟩
  decide

/-- C6 (amended): `time_trend` buckets by day (`%Y-%m-%d`), week (`%Y-%W`:
Monday-start week-of-year with days before the first Monday in week 00 — not
ISO), or month (`%Y-%m`), any unrecognized grouping defaulting to month; per
bucket it computes separate expense sum, income sum and transaction count;
buckets are strictly ascending. -/
theorem timeTrend_c6_amended (st : Store) (p : TTPeriod) (f : ASFilters) :
    (∀ row ∈ (timeTrend st p f).trends,
      row.expenses = ((st.transactions.filter fun t =>
          inWindow ⟨p.startDate, p.endDate⟩ t && matchesTypeFilter f t
            && (trendDateFormat p.grouping t.date == row.period)
            && (t.type == "expense")).map (·.amount)).sum
      ∧ row.income = ((st.transactions.filter fun t =>
          inWindow ⟨p.startDate, p.endDate⟩ t && matchesTypeFilter f t
            && (trendDateFormat p.grouping t.date == row.period)
            && (t.type == "income")).map (·.amount)).sum
      ∧ row.transaction_count = (st.transactions.filter fun t =>
          inWindow ⟨p.startDate, p.endDate⟩ t && matchesTypeFilter f t
            && (trendDateFormat p.grouping t.date == row.period)).length)
    ∧ (∀ t ∈ st.transactions, inWindow ⟨p.startDate, p.endDate⟩ t = true →
        matchesTypeFilter f t = true →
        trendDateFormat p.grouping t.date ∈ (timeTrend st p f).trends.map (·.period))
    ∧ ((timeTrend st p f).trends.map (·.period)).Sorted (· < ·)
    ∧ trendDateFormat (some "day") = fmtDay
    ∧ trendDateFormat (some "week") = fmtWeek
    ∧ (∀ g : Option String, g ≠ some "day" → g ≠ some "week" → trendDateFormat g = fmtMonth)
    ∧ (timeTrend st p f).grouping = p.grouping.getD "month" := by
  have hkeys : (timeTrend st p f).trends.map (·.period)
      = List.insertionSort (· ≤ ·)
          (((ttFiltered st p f).map fun t => trendDateFormat p.grouping t.date).dedup) := by
    show (List.map _ (List.map _ _)) = _
    rw [List.map_map]
    conv_rhs => rw [← List.map_id (List.insertionSort (· ≤ ·)
      (((ttFiltered st p f).map fun t => trendDateFormat p.grouping t.date).dedup))]
    exact List.map_congr_left fun k _ => rfl
  refine ⟨?_, ?_, ?_, rfl, rfl, ?_, rfl⟩
  · intro row hrow
    obtain ⟨k, hk, rfl⟩ := List.mem_map.mp hrow
    have hgrp : ∀ (extra : Txn → Bool),
        ((ttFiltered st p f).filter fun t =>
            (trendDateFormat p.grouping t.date == k) && extra t)
          = st.transactions.filter fun t =>
              inWindow ⟨p.startDate, p.endDate⟩ t && matchesTypeFilter f t
                && (trendDateFormat p.grouping t.date == k) && extra t := by
      intro extra
      unfold ttFiltered
      rw [List.filter_filter]
      apply List.filter_congr
      intro t _
      cases hA : inWindow ⟨p.startDate, p.endDate⟩ t <;>
        cases hB : matchesTypeFilter f t <;>
        cases hC : trendDateFormat p.grouping t.date == k <;>
        cases hD : extra t <;> simp [hA, hB, hC, hD]
    refine ⟨?_, ?_, ?_⟩
    · show ((((ttFiltered st p f).filter fun t =>
          trendDateFormat p.grouping t.date == k).filter fun t =>
            t.type == "expense").map (·.amount)).sum = _
      rw [List.filter_filter]
      have h := hgrp fun t => t.type == "expense"
      rw [show (fun t : Txn => (t.type == "expense") && (trendDateFormat p.grouping t.date == k))
          = fun t : Txn => (trendDateFormat p.grouping t.date == k) && (t.type == "expense") from
        funext fun t => Bool.and_comm _ _, h]
    · show ((((ttFiltered st p f).filter fun t =>
          trendDateFormat p.grouping t.date == k).filter fun t =>
            t.type == "income").map (·.amount)).sum = _
      rw [List.filter_filter]
      have h := hgrp fun t => t.type == "income"
      rw [show (fun t : Txn => (t.type == "income") && (trendDateFormat p.grouping t.date == k))
          = fun t : Txn => (trendDateFormat p.grouping t.date == k) && (t.type == "income") from
        funext fun t => Bool.and_comm _ _, h]
    · show ((ttFiltered st p f).filter fun t =>
          trendDateFormat p.grouping t.date == k).length = _
      have h := hgrp fun _ => true
      rw [show (fun t : Txn => trendDateFormat p.grouping t.date == k)
          = fun t : Txn => (trendDateFormat p.grouping t.date == k) && true from
        funext fun t => (Bool.and_true _).symm, h]
      congr 1
      apply List.filter_congr
      intro t _
      rw [Bool.and_true]
  · intro t ht hw hm
    rw [hkeys]
    rw [List.Perm.mem_iff (List.perm_insertionSort _ _), List.mem_dedup]
    exact List.mem_map.mpr ⟨t, List.mem_filter.mpr ⟨ht, by rw [hw, hm]; rfl⟩, rfl⟩
  · rw [hkeys]
    apply List.Sorted.lt_of_le
    · exact List.sorted_insertionSort _ _
    · rw [List.Perm.nodup_iff (List.perm_insertionSort _ _)]
      exact List.nodup_dedup _
  · intro g h1 h2
    cases g with
    | none => rfl
    | some s =>
      unfold trendDateFormat
      simp only [Option.getD]
      split
      all_goals first
        | rfl
        | exact absurd rfl h1
        | exact absurd rfl h2

/-- C6 witness: the amended theorem applied at the concrete store — bucket
sums for the `2023-00` row, bucket membership of the transaction's bucket, and
the month default for an unrecognized grouping. -/
theorem timeTrend_c6_amended_witness :
    trendDateFormat isoTTPeriod.grouping isoTxn.date
        ∈ (timeTrend isoStore isoTTPeriod noFilters).trends.map (·.period)
    ∧ trendDateFormat (some "quarter") = fmtMonth := by
  refine ⟨?_, ?_⟩
  · exact (timeTrend_c6_amended isoStore isoTTPeriod noFilters).2.1 isoTxn (by decide)
      (by decide) (by decide)
  · exact (timeTrend_c6_amended isoStore isoTTPeriod noFilters).2.2.2.2.2.1 (some "quarter")
      (by decide) (by decide)

/-- C7 counterexample: with no `transaction_type` filter, `category_breakdown`
includes income transactions — a store whose only transaction is an income of
100 yields a group with total 100 and grand total 100. -/
theorem categoryBreakdown_c7_counterexample :
    (∀ t ∈ c7Store.transactions, t.type = "income")
    ∧ ((categoryBreakdown c7Store samplePeriod noFilters).breakdown.map (·.total_amount) = [100])
    ∧ (categoryBreakdown c7Store samplePeriod noFilters).total_amount = 100 := by
  refine ⟨by decide, ?_, ?_⟩ <;>
    norm_num [categoryBreakdown, cbRows, cbFiltered, c7Store, c7Txn, samplePeriod, noFilters,
      findCategory, matchesTypeFilter, matchesCatFilter, jsOptStrTruthy, inWindow, dateLe,
      catSalary, List.insertionSort, List.orderedInsert]

/-- A `transaction_type = 'expense'` filter makes the type test exact. -/
theorem matchesTypeFilter_expense (f : ASFilters) (hf : f.transaction_type = some "expense")
    (t : Txn) : matchesTypeFilter f t = (t.type == "expense") := by
  simp [matchesTypeFilter, hf, jsOptStrTruthy]

/-- Without a `transaction_type` filter the type test passes everything. -/
theorem matchesTypeFilter_none (f : ASFilters) (hf : f.transaction_type = none)
    (t : Txn) : matchesTypeFilter f t = true := by
  simp [matchesTypeFilter, hf, jsOptStrTruthy]

/-- Field equations for a breakdown group row. -/
theorem cbRows_fields (st : Store) (p : AnalysisPeriod) (f : ASFilters) {row : CBRow}
    (h : row ∈ cbRows st p f) :
    row.total_amount
        = (((cbFiltered st p f).filter fun t => t.category_id == row.category_id).map
            (·.amount)).sum
    ∧ row.transaction_count
        = ((cbFiltered st p f).filter fun t => t.category_id == row.category_id).length
    ∧ row.avg_amount = row.total_amount / (row.transaction_count : ℚ) := by
  unfold cbRows at h
  rw [List.Perm.mem_iff (List.perm_insertionSort _ _)] at h
  rw [List.mem_filterMap] at h
  obtain ⟨cid, _, hmap⟩ := h
  rw [Option.map_eq_some'] at hmap
  obtain ⟨c, hc, hrow⟩ := hmap
  have hcid : c.id = cid := by
    have := List.find?_some hc
    simpa using this
  subst hrow
  refine ⟨by simp [hcid], by simp [hcid], rfl⟩

/-- The filtered-and-grouped row set under a fixed type test. -/
theorem cbFiltered_group (st : Store) (p : AnalysisPeriod) (f : ASFilters)
    (typeTest : Txn → Bool) (hf : ∀ t, matchesTypeFilter f t = typeTest t) (cid : String) :
    (cbFiltered st p f).filter (fun t => t.category_id == cid)
      = st.transactions.filter fun t =>
          inWindow p t && typeTest t && matchesCatFilter f t
            && (findCategory st t.category_id).isSome && (t.category_id == cid) := by
  unfold cbFiltered
  rw [List.filter_filter]
  apply List.filter_congr
  intro t _
  rw [hf t]
  cases hA : inWindow p t <;> cases hB : typeTest t <;> cases hC : matchesCatFilter f t <;>
    cases hD : (findCategory st t.category_id).isSome <;>
    cases hE : t.category_id == cid <;> simp [hA, hB, hC, hD, hE]

/-- C7 (amended): `category_breakdown` groups all windowed transactions of any
kind unless a `transaction_type` filter restricts them — with
`transaction_type = 'expense'` only expense transactions contribute to each
group's total, count and average; with no type filter the totals sum all
kinds; groups are always ordered by total descending. -/
theorem categoryBreakdown_c7_amended (st : Store) (p : AnalysisPeriod) (f : ASFilters) :
    (f.transaction_type = some "expense" →
      ∀ row ∈ (categoryBreakdown st p f).breakdown,
        row.total_amount = ((st.transactions.filter fun t =>
            inWindow p t && (t.type == "expense") && matchesCatFilter f t
              && (findCategory st t.category_id).isSome
              && (t.category_id == row.category_id)).map (·.amount)).sum
        ∧ row.transaction_count = (st.transactions.filter fun t =>
            inWindow p t && (t.type == "expense") && matchesCatFilter f t
              && (findCategory st t.category_id).isSome
              && (t.category_id == row.category_id)).length
        ∧ row.avg_amount = row.total_amount / (row.transaction_count : ℚ))
    ∧ (f.transaction_type = none →
        ∀ row ∈ (categoryBreakdown st p f).breakdown,
          row.total_amount = ((st.transactions.filter fun t =>
              inWindow p t && true && matchesCatFilter f t
                && (findCategory st t.category_id).isSome
                && (t.category_id == row.category_id)).map (·.amount)).sum)
    ∧ ((categoryBreakdown st p f).breakdown.map (·.total_amount)).Sorted
        (fun a b => b ≤ a) := by
  have hbd : (categoryBreakdown st p f).breakdown.map (·.total_amount)
      = (cbRows st p f).map (·.total_amount) := by
    show (List.map _ (List.map _ _)) = _
    rw [List.map_map]
    exact List.map_congr_left fun r _ => rfl
  refine ⟨?_, ?_, ?_⟩
  · intro hf row hrow
    obtain ⟨r, hr, rfl⟩ := List.mem_map.mp hrow
    obtain ⟨h1, h2, h3⟩ := cbRows_fields st p f hr
    have hg := cbFiltered_group st p f (fun t => t.type == "expense")
      (fun t => matchesTypeFilter_expense f hf t) r.category_id
    exact ⟨h1.trans (by rw [hg]), h2.trans (by rw [hg]), h3⟩
  · intro hf row hrow
    obtain ⟨r, hr, rfl⟩ := List.mem_map.mp hrow
    obtain ⟨h1, _, _⟩ := cbRows_fields st p f hr
    have hg := cbFiltered_group st p f (fun _ => true)
      (fun t => matchesTypeFilter_none f hf t) r.category_id
    exact h1.trans (by rw [hg])
  · rw [hbd]
    unfold cbRows
    rw [List.Sorted, List.pairwise_map]
    exact List.sorted_insertionSort cbGE _

/-- C7 witness: with the expense filter on the mixed store, the income
transaction is excluded and the food group's total is the expense sum. -/
theorem categoryBreakdown_c7_amended_witness :
    mixBreakdownRow ∈ (categoryBreakdown mixStore samplePeriod expFilters).breakdown
    ∧ mixBreakdownRow.total_amount = ((mixStore.transactions.filter fun t =>
        inWindow samplePeriod t && (t.type == "expense") && matchesCatFilter expFilters t
          && (findCategory mixStore t.category_id).isSome
          && (t.category_id == mixBreakdownRow.category_id)).map (·.amount)).sum := by
  have hmem : mixBreakdownRow ∈ (categoryBreakdown mixStore samplePeriod expFilters).breakdown := by
    norm_num +decide [categoryBreakdown, cbRows, cbFiltered, mixStore, samplePeriod, expFilters,
      findCategory, matchesTypeFilter, matchesCatFilter, jsOptStrTruthy, inWindow, dateLe,
      txnFood10, c7Txn, catFood, catSalary, mixBreakdownRow, round2, round,
      List.insertionSort, List.orderedInsert]
  exact ⟨hmem,
    ((categoryBreakdown_c7_amended mixStore samplePeriod expFilters).1 rfl mixBreakdownRow
      hmem).1⟩

/-- Membership in a node's collected children. -/
theorem mem_childrenOf {cats : List Category} {pid : String} {d : Category} :
    d ∈ childrenOf cats pid
      ↔ d ∈ cats ∧ jsOptStrTruthy d.parent_id = true ∧ d.parent_id.getD "" = pid := by
  simp [childrenOf, List.mem_filter, Bool.and_eq_true, and_assoc]

/-- The presence test, unfolded. -/
theorem parentPresent_iff {cats : List Category} {c : Category} :
    parentPresent cats c = true
      ↔ jsOptStrTruthy c.parent_id = true ∧ c.parent_id.getD "" ∈ cats.map (·.id) := by
  simp [parentPresent, Bool.and_eq_true]

/-- Membership in the root list. -/
theorem mem_rootCats {cats : List Category} {c : Category} :
    c ∈ rootCats cats ↔ c ∈ cats ∧ parentPresent cats c = false := by
  simp [rootCats, List.mem_filter]

/-- With pairwise-distinct ids, members with equal ids are equal. -/
theorem eq_of_id_eq {cats : List Category} (hnd : (cats.map (·.id)).Nodup)
    {d d' : Category} (hd : d ∈ cats) (hd' : d' ∈ cats) (h : d.id = d'.id) : d = d' := by
  induction cats with
  | nil => cases hd
  | cons c cs ih =>
    rw [List.map_cons, List.nodup_cons] at hnd
    rcases List.mem_cons.mp hd with rfl | hdt
    · rcases List.mem_cons.mp hd' with rfl | hdt'
      · rfl
      · exact absurd (List.mem_map.mpr ⟨d', hdt', h.symm⟩) hnd.1
    · rcases List.mem_cons.mp hd' with rfl | hdt'
      · exact absurd (List.mem_map.mpr ⟨d, hdt, h⟩) hnd.1
      · exact ih hnd.2 hdt hdt'

/-- Counting over a flattened forest is the sum of per-node counts. -/
theorem count_flattenForest (x : Category) (ns : List CatNode) :
    (flattenForest ns).count x = (ns.map fun n => (flattenNode n).count x).sum := by
  induction ns with
  | nil => rfl
  | cons n ns ih =>
    show ((flattenNode n ++ flattenForest ns).count x) = _
    rw [List.count_append, ih]
    rfl

/-- The category at a built node is the one it was built from. -/
theorem buildNode_cat (cats : List Category) (f : Nat) (c : Category) :
    (buildNode cats f c).cat = c := by
  cases f <;> rfl

/-- Inversion: a zero-length chain starts where it ends. -/
theorem ChainN_zero {cats : List Category} {c x : Category} (h : ChainN cats c x 0) :
    x = c := by
  cases h
  rfl

/-- Inversion: a nonzero-length chain steps through the bottom's parent. -/
theorem ChainN_succ {cats : List Category} {c x : Category} {k : Nat}
    (h : ChainN cats c x (k + 1)) :
    ∃ P, jsOptStrTruthy x.parent_id = true ∧ P ∈ cats ∧ P.id = x.parent_id.getD ""
      ∧ ChainN cats c P k := by
  cases h with
  | step x P k htr hP hPid hch => exact ⟨P, htr, hP, hPid, hch⟩

/-- Chains increase rank by at least their length (under a rank certificate). -/
theorem ChainN_rank (cats : List Category) (rank : String → Nat)
    (hrank : ∀ c ∈ cats, parentPresent cats c = true → rank (c.parent_id.getD "") < rank c.id) :
    ∀ {c x : Category} {k : Nat}, ChainN cats c x k → x ∈ cats →
      c ∈ cats ∧ rank c.id + k ≤ rank x.id := by
  intro c x k h
  induction h with
  | refl =>
    intro hx
    exact ⟨hx, by omega⟩
  | step x P k htr hP hPid hch ih =>
    intro hx
    obtain ⟨hc, hle⟩ := ih hP
    have hpp : parentPresent cats x = true :=
      parentPresent_iff.mpr ⟨htr, hPid ▸ List.mem_map.mpr ⟨P, hP, rfl⟩⟩
    have hlt : rank (x.parent_id.getD "") < rank x.id := hrank x hx hpp
    rw [← hPid] at hlt
    exact ⟨hc, by omega⟩

/-- A nonempty chain into `x` descends through a child of the chain's top. -/
theorem ChainN_top (cats : List Category) :
    ∀ (k : Nat) (c x : Category), ChainN cats c x (k + 1) → x ∈ cats →
      ∃ d, d ∈ childrenOf cats c.id ∧ ChainN cats d x k := by
  intro k
  induction k with
  | zero =>
    intro c x h hx
    obtain ⟨P, htr, hP, hPid, hch⟩ := ChainN_succ h
    have hPc : P = c := ChainN_zero hch
    subst hPc
    exact ⟨x, mem_childrenOf.mpr ⟨hx, htr, hPid.symm⟩, ChainN.refl⟩
  | succ k ih =>
    intro c x h hx
    obtain ⟨P, htr, hP, hPid, hch⟩ := ChainN_succ h
    obtain ⟨d, hd, hch'⟩ := ih c P hch hP
    exact ⟨d, hd, ChainN.step x P k htr hP hPid hch'⟩

/-- A chain from a child of `c` extends to a chain from `c`. -/
theorem ChainN_extend_top (cats : List Category) {d x : Category} {k : Nat}
    (h : ChainN cats d x k) (c : Category) (hc : c ∈ cats)
    (hd : d ∈ childrenOf cats c.id) : ChainN cats c x (k + 1) := by
  induction h with
  | refl =>
    obtain ⟨_, htr, hp⟩ := mem_childrenOf.mp hd
    exact ChainN.step d c 0 htr hc hp.symm ChainN.refl
  | step y P k htr hP hPid hch ih =>
    exact ChainN.step y P (k + 1) htr hP hPid ih

/-- Two upward chains from the same start are comparable: the longer one
factors through the shorter one's top. -/
theorem ChainN_comparable (cats : List Category) (hnd : (cats.map (·.id)).Nodup) :
    ∀ {x d d' : Category} {k1 k2 : Nat}, ChainN cats d x k1 → ChainN cats d' x k2 →
      k1 ≤ k2 → ChainN cats d' d (k2 - k1) := by
  intro x d d' k1 k2 h1
  induction h1 generalizing k2 with
  | refl =>
    intro h2 _
    simpa using h2
  | step x P k htr hP hPid hch ih =>
    intro h2 hle
    match k2, hle with
    | k2' + 1, _ =>
      obtain ⟨P', htr', hP', hPid', hch'⟩ := ChainN_succ h2
      have hPP : P' = P := eq_of_id_eq hnd hP' hP (hPid'.trans hPid.symm)
      subst hPP
      have h := ih hch' (by omega)
      simpa [Nat.succ_sub_succ] using h

/-- A child of an input category belongs to the input. -/
theorem childrenOf_sub {cats : List Category} {pid : String} {d : Category}
    (h : d ∈ childrenOf cats pid) : d ∈ cats :=
  (mem_childrenOf.mp h).1

/-- A child of `c` has a strictly larger rank than `c`. -/
theorem rank_child (cats : List Category) (rank : String → Nat)
    (hrank : ∀ c ∈ cats, parentPresent cats c = true → rank (c.parent_id.getD "") < rank c.id)
    {c d : Category} (hc : c ∈ cats) (hd : d ∈ childrenOf cats c.id) :
    rank c.id < rank d.id := by
  obtain ⟨hdmem, htr, hp⟩ := mem_childrenOf.mp hd
  have hpp : parentPresent cats d = true :=
    parentPresent_iff.mpr ⟨htr, hp ▸ List.mem_map.mpr ⟨c, hc, rfl⟩⟩
  have h := hrank d hdmem hpp
  rwa [hp] at h

/-- No chain can run from one child of `c` up to a different child of `c`. -/
theorem child_chain_absurd (cats : List Category) (hnd : (cats.map (·.id)).Nodup)
    (rank : String → Nat)
    (hrank : ∀ c ∈ cats, parentPresent cats c = true → rank (c.parent_id.getD "") < rank c.id)
    {c a b : Category} (hc : c ∈ cats) (ha : a ∈ childrenOf cats c.id)
    (hb : b ∈ childrenOf cats c.id) (hne : b ≠ a) {m : Nat}
    (h : ChainN cats b a m) : False := by
  match m, h with
  | 0, h => exact hne (ChainN_zero h).symm
  | m' + 1, h =>
    obtain ⟨P, htr, hP, hPid, hch⟩ := ChainN_succ h
    have hPc : P = c := eq_of_id_eq hnd hP hc (hPid.trans (mem_childrenOf.mp ha).2.2)
    rw [hPc] at hch
    obtain ⟨_, hle⟩ := ChainN_rank cats rank hrank hch hc
    have hgt : rank c.id < rank b.id := rank_child cats rank hrank hc hb
    omega

/-- A subtree contains no copy of `x` when no short-enough chain reaches it. -/
theorem count_buildNode_eq_zero (cats : List Category) :
    ∀ (f : Nat) (c x : Category), c ∈ cats → x ∈ cats →
      (∀ k, k ≤ f → ¬ ChainN cats c x k) →
      (flattenNode (buildNode cats f c)).count x = 0 := by
  intro f
  induction f with
  | zero =>
    intro c x _ _ hno
    have hxc : ¬ (c = x) := fun h => hno 0 (le_refl 0) (h ▸ ChainN.refl)
    show List.count x [c] = 0
    rw [List.count_singleton]
    simp [hxc]
  | succ f ih =>
    intro c x hc hx hno
    have hxc : ¬ (c = x) := fun h => hno 0 (by omega) (h ▸ ChainN.refl)
    show List.count x (c :: flattenForest ((childrenOf cats c.id).map (buildNode cats f))) = 0
    rw [List.count_cons, count_flattenForest, List.map_map]
    have hz : ∀ y ∈ (childrenOf cats c.id).map
        ((fun n => (flattenNode n).count x) ∘ buildNode cats f), y = 0 := by
      intro y hy
      obtain ⟨d, hd, rfl⟩ := List.mem_map.mp hy
      exact ih d x (childrenOf_sub hd) hx fun k _ hch =>
        hno (k + 1) (by omega) (ChainN_extend_top cats hch c hc hd)
    rw [List.sum_eq_zero hz]
    simp [hxc]

/-- Sum of a map that is 1 at a single member of a duplicate-free list. -/
theorem sum_map_eq_one {α : Type} (l : List α) (g : α → Nat) (d : α)
    (hnd : l.Nodup) (hd : d ∈ l) (h1 : g d = 1) (h0 : ∀ e ∈ l, e ≠ d → g e = 0) :
    (l.map g).sum = 1 := by
  induction l with
  | nil => cases hd
  | cons a l ih =>
    rw [List.nodup_cons] at hnd
    rcases List.mem_cons.mp hd with rfl | hdt
    · have hz : ∀ y ∈ l.map g, y = 0 := by
        intro y hy
        obtain ⟨e, he, rfl⟩ := List.mem_map.mp hy
        exact h0 e (List.mem_cons_of_mem _ he) (fun hed => hnd.1 (hed ▸ he))
      rw [List.map_cons, List.sum_cons, h1, List.sum_eq_zero hz]
      rfl
    · have ha : g a = 0 :=
        h0 a (List.mem_cons_self a l) (fun had => hnd.1 (by rw [had]; exact hdt))
      rw [List.map_cons, List.sum_cons, ha,
        ih hnd.2 hdt (fun e he hed => h0 e (List.mem_cons_of_mem _ he) hed)]

/-- A subtree contains exactly one copy of `x` when a short-enough chain
reaches it. -/
theorem count_buildNode_eq_one (cats : List Category) (hnd : (cats.map (·.id)).Nodup)
    (rank : String → Nat)
    (hrank : ∀ c ∈ cats, parentPresent cats c = true → rank (c.parent_id.getD "") < rank c.id) :
    ∀ (f : Nat) (c x : Category), c ∈ cats → x ∈ cats →
      (∃ k, k ≤ f ∧ ChainN cats c x k) →
      (flattenNode (buildNode cats f c)).count x = 1 := by
  intro f
  induction f with
  | zero =>
    intro c x hc hx h
    obtain ⟨k, hk, hch⟩ := h
    have hk0 : k = 0 := Nat.le_zero.mp hk
    rw [hk0] at hch
    have hxc : x = c := ChainN_zero hch
    show List.count x [c] = 1
    rw [List.count_singleton]
    simp [hxc]
  | succ f ih =>
    intro c x hc hx h
    obtain ⟨k, hk, hch⟩ := h
    show List.count x (c :: flattenForest ((childrenOf cats c.id).map (buildNode cats f))) = 1
    rw [List.count_cons, count_flattenForest, List.map_map]
    by_cases hxc : x = c
    · have hz : ∀ y ∈ (childrenOf cats c.id).map
          ((fun n => (flattenNode n).count x) ∘ buildNode cats f), y = 0 := by
        intro y hy
        obtain ⟨d, hd, rfl⟩ := List.mem_map.mp hy
        apply count_buildNode_eq_zero cats f d x (childrenOf_sub hd) hx
        intro k' _ hch'
        rw [hxc] at hch'
        obtain ⟨-, hle⟩ := ChainN_rank cats rank hrank hch' hc
        have hgt := rank_child cats rank hrank hc hd
        omega
      rw [List.sum_eq_zero hz]
      simp [hxc]
    · obtain ⟨k', rfl, hk'f⟩ : ∃ k', k = k' + 1 ∧ k' ≤ f := by
        cases k with
        | zero => exact absurd (ChainN_zero hch) hxc
        | succ k' => exact ⟨k', rfl, by omega⟩
      obtain ⟨d, hd, hdch⟩ := ChainN_top cats k' c x hch hx
      have hone : ((fun n => (flattenNode n).count x) ∘ buildNode cats f) d = 1 :=
        ih d x (childrenOf_sub hd) hx ⟨k', hk'f, hdch⟩
      have hzero : ∀ e ∈ childrenOf cats c.id, e ≠ d →
          ((fun n => (flattenNode n).count x) ∘ buildNode cats f) e = 0 := by
        intro e he hed
        apply count_buildNode_eq_zero cats f e x (childrenOf_sub he) hx
        intro k2 _ hch2
        rcases le_total k' k2 with hle | hle
        · exact child_chain_absurd cats hnd rank hrank hc hd he hed
            (ChainN_comparable cats hnd hdch hch2 hle)
        · exact child_chain_absurd cats hnd rank hrank hc he hd (Ne.symm hed)
            (ChainN_comparable cats hnd hch2 hdch hle)
      have hnodup : (childrenOf cats c.id).Nodup :=
        (List.Nodup.of_map (·.id) hnd).filter _
      rw [sum_map_eq_one (childrenOf cats c.id) _ d hnodup hd hone hzero]
      have hcx : ¬ (c = x) := fun h => hxc h.symm
      simp [hcx]

/-- Every input category reaches a root along its parent chain, within its
rank. -/
theorem exists_root_chain (cats : List Category) (rank : String → Nat)
    (hrank : ∀ c ∈ cats, parentPresent cats c = true → rank (c.parent_id.getD "") < rank c.id) :
    ∀ (n : Nat) (x : Category), x ∈ cats → rank x.id < n →
      ∃ r, r ∈ rootCats cats ∧ ∃ k, k ≤ rank x.id ∧ ChainN cats r x k := by
  intro n
  induction n with
  | zero =>
    intro x _ h
    omega
  | succ n ih =>
    intro x hx hlt
    by_cases hpp : parentPresent cats x = true
    · obtain ⟨htr, hpid⟩ := parentPresent_iff.mp hpp
      obtain ⟨P, hP, hPid⟩ := List.mem_map.mp hpid
      have hrk : rank P.id < rank x.id := by
        have h := hrank x hx hpp
        rwa [← hPid] at h
      obtain ⟨r, hr, k, hk, hch⟩ := ih P hP (by omega)
      exact ⟨r, hr, k + 1, by omega, ChainN.step x P k htr hP hPid hch⟩
    · exact ⟨x, mem_rootCats.mpr ⟨hx, Bool.not_eq_true _ ▸ hpp⟩, 0, by omega, ChainN.refl⟩

/-- At most one root reaches any given category. -/
theorem root_chain_unique (cats : List Category) (hnd : (cats.map (·.id)).Nodup)
    {r r' x : Category} {k k' : Nat}
    (hr : r ∈ rootCats cats) (hr' : r' ∈ rootCats cats)
    (h1 : ChainN cats r x k) (h2 : ChainN cats r' x k') : r = r' := by
  have key : ∀ {a b : Category} {m : Nat}, a ∈ rootCats cats → ChainN cats b a m → a = b := by
    intro a b m ha h
    match m, h with
    | 0, h => exact ChainN_zero h
    | m' + 1, h =>
      obtain ⟨P, htr, hP, hPid, _⟩ := ChainN_succ h
      have hpp : parentPresent cats a = true :=
        parentPresent_iff.mpr ⟨htr, hPid ▸ List.mem_map.mpr ⟨P, hP, rfl⟩⟩
      have := (mem_rootCats.mp ha).2
      rw [hpp] at this
      cases this
  rcases le_total k k' with hle | hle
  · exact key hr (ChainN_comparable cats hnd h1 h2 hle)
  · exact (key hr' (ChainN_comparable cats hnd h2 h1 hle)).symm

/-- The claim fails on a parent cycle: the input category `cycCat` is dropped
from the resulting tree entirely. -/
theorem buildCategoryTree_c10_counterexample :
    cycCat ∈ [cycCat]
    ∧ buildCategoryTree [cycCat] = []
    ∧ (flattenForest (buildCategoryTree [cycCat])).count cycCat = 0 :=
  ⟨List.mem_singleton.mpr rfl, rfl, rfl⟩

/-- C10 (amended): for an input list with pairwise-distinct ids whose parent
references are acyclic — certified by a rank function increasing from parent
to child and bounded by the list length — a category whose `parent_id` is null
or refers to an id absent from the input is placed at the root level rather
than dropped, and every input category appears exactly once in the resulting
tree.  (Without acyclicity a category inside a parent cycle is dropped, per
the counterexample.) -/
theorem buildCategoryTree_c10_amended (cats : List Category)
    (hnd : (cats.map (·.id)).Nodup) (rank : String → Nat)
    (hrank : ∀ c ∈ cats, parentPresent cats c = true → rank (c.parent_id.getD "") < rank c.id)
    (hbound : ∀ c ∈ cats, rank c.id < cats.length) :
    (∀ c ∈ cats,
      (c.parent_id = none ∨ ∀ p, c.parent_id = some p → p ∉ cats.map (·.id)) →
      c ∈ (buildCategoryTree cats).map CatNode.cat)
    ∧ (∀ c ∈ cats, (flattenForest (buildCategoryTree cats)).count c = 1) := by
  constructor
  · intro c hc hroot
    have hpp : parentPresent cats c = false := by
      rcases hroot with hnone | habs
      · simp [parentPresent, jsOptStrTruthy, hnone]
      · rw [Bool.eq_false_iff]
        intro hpp
        obtain ⟨htr, hpid⟩ := parentPresent_iff.mp hpp
        cases hp : c.parent_id with
        | none => rw [hp] at htr; exact absurd htr (by simp [jsOptStrTruthy])
        | some p =>
          apply habs p hp
          rw [hp] at hpid
          simpa using hpid
    show c ∈ ((rootCats cats).map (buildNode cats cats.length)).map CatNode.cat
    exact List.mem_map.mpr ⟨buildNode cats cats.length c,
      List.mem_map.mpr ⟨c, mem_rootCats.mpr ⟨hc, hpp⟩, rfl⟩,
      buildNode_cat cats cats.length c⟩
  · intro x hx
    unfold buildCategoryTree
    rw [count_flattenForest, List.map_map]
    obtain ⟨r, hr, k, hk, hch⟩ :=
      exists_root_chain cats rank hrank cats.length x hx (hbound x hx)
    have hone : ((fun n => (flattenNode n).count x) ∘ buildNode cats cats.length) r = 1 :=
      count_buildNode_eq_one cats hnd rank hrank cats.length r x (mem_rootCats.mp hr).1 hx
        ⟨k, le_of_lt (lt_of_le_of_lt hk (hbound x hx)), hch⟩
    have hzero : ∀ r' ∈ rootCats cats, r' ≠ r →
        ((fun n => (flattenNode n).count x) ∘ buildNode cats cats.length) r' = 0 := by
      intro r' hr' hne
      apply count_buildNode_eq_zero cats cats.length r' x (mem_rootCats.mp hr').1 hx
      intro k2 _ hch2
      exact hne (root_chain_unique cats hnd hr' hr hch2 hch)
    have hnodup : (rootCats cats).Nodup := (List.Nodup.of_map (·.id) hnd).filter _
    exact sum_map_eq_one (rootCats cats) _ r hnodup hr hone hzero

/-- C10 witness: on the concrete two-level list the root category surfaces at
the root level and the child appears exactly once in the flattened tree. -/
theorem buildCategoryTree_c10_amended_witness :
    catFood ∈ (buildCategoryTree treeCats).map CatNode.cat
    ∧ (flattenForest (buildCategoryTree treeCats)).count catGroceries = 1 :=
  ⟨(buildCategoryTree_c10_amended treeCats (by decide) treeRank (by decide) (by decide)).1
      catFood (by decide) (Or.inl rfl),
   (buildCategoryTree_c10_amended treeCats (by decide) treeRank (by decide) (by decide)).2
      catGroceries (by decide)⟩

end ExpenseMCP
